import Mathlib

/-!
Verification of the MeshLink node-tracking core (plugins/libnode_db.py,
plugins/node_tracking.py, plugins/node_web_server.py) against its
specification.

The Python code is shallowly embedded: SQLite rows become Lean structures,
per-key SQL commands become pure functions on the affected row (the commands
read and write only the row selected by their key), floats become exact
rationals (ℚ), SQL `NULL` / Python `None` become `Option`, and wall-clock
ISO-8601 timestamps become `Nat` seconds (the code compares ISO strings
lexicographically, which agrees with chronological order for a monotone
clock).  Python's falsy `or` on numbers (`x or d` yields `d` when `x` is
`None` **or zero**) is modelled exactly by `pyOr`, because the behaviour at
zero is observable.
-/

namespace MeshLink

/-- Python's `x or d` for an optional numeric `x`: `d` when `x` is `None`
or equal to `0` (both are falsy in Python), otherwise the value of `x`. -/
def pyOr (x : Option ℚ) (d : ℚ) : ℚ :=
  match x with
  | none => d
  | some v => if v = 0 then d else v

/-- Python's `round(x, 2)`, modelled on ℚ as round-half-up at two decimals.
(The concrete values appearing in this development are never at half-way
points, where Python's round-half-even could differ.) -/
def round2 (x : ℚ) : ℚ := (⌊x * 100 + 1/2⌋ : ℚ) / 100

/-- Embedding of `NodeDatabase._calculate_link_quality` (libnode_db.py).
40% SNR component clamping `(snr+20)*2.5` to [0,100], 40% RSSI component
clamping `(rssi+120)*1.11` to [0,100], 20% reliability `min(100, 2*count)`;
a missing SNR or RSSI contributes nothing; rounded to two decimals. -/
def calculateLinkQuality (snr : Option ℚ) (rssi : Option ℚ) (packetCount : Nat) : ℚ :=
  let score1 : ℚ :=
    match snr with
    | some s => (min 100 (max 0 ((s + 20) * 2.5))) * 0.4
    | none => 0
  let score2 : ℚ :=
    match rssi with
    | some r => score1 + (min 100 (max 0 ((r + 120) * 1.11))) * 0.4
    | none => score1
  let reliability : ℚ := min 100 ((packetCount : ℚ) * 2)
  round2 (score2 + reliability * 0.2)

/-- A row of the `network_topology` table (one directed edge, uniquely keyed
by `(source_node_id, neighbor_node_id)`; the key is implicit since
`update_topology` reads and writes only its own row). -/
structure TopoEdge where
  first_heard : Nat
  last_heard : Nat
  total_packets : Nat
  avg_snr : Option ℚ
  avg_rssi : Option ℚ
  min_snr : Option ℚ
  max_snr : Option ℚ
  min_rssi : Option ℚ
  max_rssi : Option ℚ
  link_quality_score : ℚ
  is_active : Bool
  last_hop_count : Option Int
  deriving Repr, DecidableEq

/-- Embedding of `NodeDatabase.update_topology` (libnode_db.py), restricted
to the single edge row it selects: `existing` is the current row for the
`(source, neighbor)` pair or `none`.  The `pyOr` calls mirror the source's
`existing['avg_snr'] or 0`, `existing['min_snr'] or snr`, etc. -/
def updateTopology (existing : Option TopoEdge) (snr rssi : Option ℚ)
    (hopCount : Option Int) (now : Nat) : TopoEdge :=
  match existing with
  | none =>
      { first_heard := now, last_heard := now, total_packets := 1,
        avg_snr := snr, avg_rssi := rssi,
        min_snr := snr, max_snr := snr, min_rssi := rssi, max_rssi := rssi,
        link_quality_score := calculateLinkQuality snr rssi 1,
        is_active := true, last_hop_count := hopCount }
  | some e =>
      let total := e.total_packets + 1
      let avgS : Option ℚ :=
        match snr with
        | some s => some ((pyOr e.avg_snr 0 * (e.total_packets : ℚ) + s) / (total : ℚ))
        | none => e.avg_snr
      let minS : Option ℚ :=
        match snr with
        | some s => some (min (pyOr e.min_snr s) s)
        | none => e.min_snr
      let maxS : Option ℚ :=
        match snr with
        | some s => some (max (pyOr e.max_snr s) s)
        | none => e.max_snr
      let avgR : Option ℚ :=
        match rssi with
        | some r => some ((pyOr e.avg_rssi 0 * (e.total_packets : ℚ) + r) / (total : ℚ))
        | none => e.avg_rssi
      let minR : Option ℚ :=
        match rssi with
        | some r => some (min (pyOr e.min_rssi r) r)
        | none => e.min_rssi
      let maxR : Option ℚ :=
        match rssi with
        | some r => some (max (pyOr e.max_rssi r) r)
        | none => e.max_rssi
      { first_heard := e.first_heard, last_heard := now, total_packets := total,
        avg_snr := avgS, avg_rssi := avgR,
        min_snr := minS, max_snr := maxS, min_rssi := minR, max_rssi := maxR,
        link_quality_score := calculateLinkQuality avgS avgR total,
        is_active := true, last_hop_count := hopCount }

/-- One call to `update_topology` for a fixed edge: the optional SNR and
RSSI samples, the optional hop count, and the receive time. -/
structure TopoCall where
  snr : Option ℚ
  rssi : Option ℚ
  hop : Option Int
  now : Nat
  deriving Repr, DecidableEq

/-- A sequence of `update_topology` calls on one edge, starting from an
absent row (the first call creates it). -/
def runTopology (calls : List TopoCall) : Option TopoEdge :=
  calls.foldl (fun acc c => some (updateTopology acc c.snr c.rssi c.hop c.now)) none

/-- Python's `x or d` on optional strings: `d` when `x` is `None` or the
empty string (both falsy), otherwise the value of `x`. -/
def pyOrS (x : Option String) (d : String) : String :=
  match x with
  | none => d
  | some s => if s = "" then d else s

/-- One lowercase hex digit. -/
def hexDigit (n : Nat) : Char :=
  if n < 10 then Char.ofNat (48 + n) else Char.ofNat (87 + n)

/-- Python's `f"!{num:08x}"`: the canonical node id derived from a 32-bit
node number. -/
def hexId (num : Nat) : String :=
  "!" ++ String.mk ((List.range 8).map (fun i => hexDigit (num / 16 ^ (7 - i) % 16)))

/-- Python's `s.startswith('!')` / SQL `LIKE '!%'`: the stored relay value
is a full canonical node id rather than an unresolved 8-bit marker. -/
def isBangId (s : String) : Bool := s.data.head? = some (Char.ofNat 33)

/-- The `user` sub-record of a nodeinfo payload or node-table entry. -/
structure UserInfo where
  shortName : Option String
  longName : Option String
  hwModel : Option String
  deriving Repr, DecidableEq

/-- A position sub-record (already normalised to decimal degrees). -/
structure PosInfo where
  latitude : Option ℚ
  longitude : Option ℚ
  altitude : Option ℚ
  deriving Repr, DecidableEq

/-- The `deviceMetrics` sub-record of a telemetry payload. -/
structure DeviceMetrics where
  batteryLevel : Option Int
  voltage : Option ℚ
  deriving Repr, DecidableEq

/-- The decoded payload of a received packet; only the fields read by the
modelled extraction paths are kept. A `none` sub-record models a missing
(or empty, hence falsy) nested dictionary. -/
structure DecodedPayload where
  portnum : Option String
  text : Option String
  user : Option UserInfo
  position : Option PosInfo
  deviceMetrics : Option DeviceMetrics
  deriving Repr, DecidableEq

/-- A packet record as delivered by the radio driver (§6 of the spec);
fields not read by any modelled path are omitted. -/
structure Packet where
  fromId : Option String
  fromNum : Option Nat
  channel : Option Nat
  hopStart : Option Int
  hopLimit : Option Int
  rxSnr : Option ℚ
  rxRssi : Option ℚ
  viaMqtt : Bool
  relayNode : Option Nat
  decoded : DecodedPayload
  deriving Repr, DecidableEq

/-- One entry of the radio driver's in-memory `interface.nodes` table.
`key` is the dictionary key: `some n` when the key converts to an integer
node number, `none` when `int()` on it raises (the source skips such
entries in relay matching). -/
structure IfaceNode where
  key : Option Nat
  userId : Option String
  longName : Option String
  shortName : Option String
  hwModel : Option String
  snr : Option ℚ
  lastHeard : Option Nat
  position : Option PosInfo
  deviceMetrics : Option DeviceMetrics
  deriving Repr, DecidableEq

/-- The columns of a `nodes` row read by the relay-match fallback query. -/
structure DbNodeRow where
  node_id : String
  node_num : Option Nat
  long_name : Option String
  short_name : Option String
  total_packets_received : Option Nat
  deriving Repr, DecidableEq

/-- A relay-match candidate as built by `_match_relay_node`
(node_tracking.py): id, display name, node number, and the heuristic
ranking data (`snr` defaults to -999 and `last_heard` to 0 when absent;
`totalPackets` is 0 for interface candidates, which carry no such key). -/
structure RelayMatch where
  id : String
  name : String
  num : Nat
  snr : ℚ
  lastHeard : Nat
  totalPackets : Nat
  deriving Repr, DecidableEq

/-- Candidates drawn from the driver's node table: skip the packet's source,
skip entries whose key is not an integer, and keep those whose node number's
low byte equals the partial relay value's low byte. -/
def ifaceCandidates (pid : Nat) (nodes : List IfaceNode) (sourceId : String) :
    List RelayMatch :=
  nodes.filterMap (fun n =>
    if n.userId = some sourceId then none
    else
      match n.key with
      | none => none
      | some num =>
          if num % 256 = pid % 256 then
            some { id := pyOrS n.userId (hexId num),
                   name := pyOrS n.longName (pyOrS n.shortName (pyOrS n.userId (hexId num))),
                   num := num,
                   snr := n.snr.getD (-999),
                   lastHeard := n.lastHeard.getD 0,
                   totalPackets := 0 }
          else none)

/-- Candidates drawn from the Store fallback query (`node_id != source AND
node_num IS NOT NULL`, low byte of `node_num` matches); they carry
`snr = -999` and `last_heard = 0`. -/
def dbCandidates (pid : Nat) (rows : List DbNodeRow) (sourceId : String) :
    List RelayMatch :=
  rows.filterMap (fun r =>
    if r.node_id = sourceId then none
    else
      match r.node_num with
      | none => none
      | some num =>
          if num % 256 = pid % 256 then
            some { id := r.node_id,
                   name := pyOrS r.long_name (pyOrS r.short_name r.node_id),
                   num := num,
                   snr := -999,
                   lastHeard := 0,
                   totalPackets := r.total_packets_received.getD 0 }
          else none)

/-- The heuristic ranking key of `_match_relay_node` as a strict comparison:
`a` ranks strictly below `b` on (last-heard, SNR, packet count)
lexicographically. -/
def rankLt (a b : RelayMatch) : Bool :=
  a.lastHeard < b.lastHeard ∨
    (a.lastHeard = b.lastHeard ∧
      (a.snr < b.snr ∨ (a.snr = b.snr ∧ a.totalPackets < b.totalPackets)))

/-- Leftmost maximum of `m :: l` under a strict comparison `lt`. -/
def foldMax {A : Type} (lt : A → A → Bool) (m : A) (l : List A) : A :=
  l.foldl (fun best x => if lt best x then x else best) m

/-- Leftmost maximum of a list under a strict comparison `lt` (`none` for
the empty list). -/
def pickMax {A : Type} (lt : A → A → Bool) (l : List A) : Option A :=
  l.foldl (fun acc x =>
    match acc with
    | none => some x
    | some b => if lt b x then some x else some b) none

/-- Python's `matches.sort(key=..., reverse=True); matches[0]`: the leftmost
candidate with the maximal ranking key (Python's sort is stable). -/
def bestMatch (m : RelayMatch) (rest : List RelayMatch) : RelayMatch :=
  foldMax rankLt m rest

/-- Embedding of `_match_relay_node` (node_tracking.py): interface
candidates first, the Store only as a fallback when the interface has none;
`none` when no candidate qualifies, the single candidate when exactly one
does, the top-ranked one otherwise. -/
def matchRelayNode (pid : Nat) (ifaceNodes : List IfaceNode)
    (dbRows : List DbNodeRow) (sourceId : String) : Option RelayMatch :=
  let primary := ifaceCandidates pid ifaceNodes sourceId
  let ms := if primary.isEmpty then dbCandidates pid dbRows sourceId else primary
  match ms with
  | [] => none
  | [m] => some m
  | m :: rest => some (bestMatch m rest)

/-- A row of the `packet_history` table; position, telemetry-metric and
raw-payload columns, which no claim reads, are omitted. -/
structure PacketData where
  node_id : String
  received_at : Nat
  packet_type : Option String
  channel_index : Nat
  hop_start : Option Int
  hop_limit : Option Int
  hops_away : Option Int
  via_mqtt : Bool
  relay_node_id : Option String
  relay_node_name : Option String
  rx_snr : Option ℚ
  rx_rssi : Option ℚ
  message_text : Option String
  deriving Repr, DecidableEq

/-- Embedding of `_extract_packet_data` (node_tracking.py).  `none` when
the packet has no source id.  `hops_away` is set only when both hop fields
are present **and nonzero** (`if packet_data['hop_start'] and
packet_data['hop_limit']`, Python truthiness).  The relay field is resolved
through `_match_relay_node` when the packet carries a partial relay id and
`hops_away > 0`; an unmatched partial id is stored as its decimal string;
a matched id is stored only when it starts with `!`. -/
def extractPacketData (p : Packet) (ifaceNodes : List IfaceNode)
    (dbRows : List DbNodeRow) (now : Nat) : Option PacketData :=
  match p.fromId with
  | none => none
  | some nid =>
      let base : PacketData :=
        { node_id := nid, received_at := now,
          packet_type := p.decoded.portnum,
          channel_index := p.channel.getD 0,
          hop_start := p.hopStart, hop_limit := p.hopLimit,
          hops_away := none, via_mqtt := p.viaMqtt,
          relay_node_id := none, relay_node_name := none,
          rx_snr := p.rxSnr, rx_rssi := p.rxRssi,
          message_text := none }
      let d1 : PacketData :=
        match p.hopStart, p.hopLimit with
        | some hs, some hl =>
            if hs ≠ 0 ∧ hl ≠ 0 then { base with hops_away := some (hs - hl) } else base
        | _, _ => base
      let d2 : PacketData :=
        match p.relayNode with
        | some pid =>
            if d1.hops_away.getD 0 > 0 then
              match matchRelayNode pid ifaceNodes dbRows nid with
              | some m =>
                  if isBangId m.id then
                    { d1 with relay_node_id := some m.id, relay_node_name := some m.name }
                  else d1
              | none => { d1 with relay_node_id := some (toString pid) }
            else d1
        | none => d1
      let d3 : PacketData :=
        if p.decoded.portnum = some "TEXT_MESSAGE_APP" then
          { d2 with message_text := p.decoded.text }
        else d2
      some d3

/-- The node fields extracted from one packet by `_extract_node_data`
(node_tracking.py): exactly the dictionary keys that function can set
(minus `is_charging`, an approximation no claim reads).  It never sets
`is_airplane`. -/
structure NodeData where
  node_id : String
  node_num : Option Nat
  is_mqtt : Bool
  short_name : Option String
  long_name : Option String
  hardware_model : Option String
  latitude : Option ℚ
  longitude : Option ℚ
  altitude : Option ℚ
  battery_level : Option Int
  voltage : Option ℚ
  deriving Repr, DecidableEq

/-- Embedding of `_extract_node_data` (node_tracking.py).  The driver's
node table is keyed by the canonical node id, which equals the entry's
`user.id`, so `LibMesh.getNode` is a lookup on that field. -/
def extractNodeData (p : Packet) (ifaceNodes : List IfaceNode) : Option NodeData :=
  match p.fromId with
  | none => none
  | some nid =>
      let d0 : NodeData :=
        { node_id := nid, node_num := p.fromNum, is_mqtt := p.viaMqtt,
          short_name := none, long_name := none, hardware_model := none,
          latitude := none, longitude := none, altitude := none,
          battery_level := none, voltage := none }
      let d1 : NodeData :=
        match ifaceNodes.find? (fun n => n.userId == some nid) with
        | some n =>
            let da := { d0 with short_name := n.shortName, long_name := n.longName,
                                hardware_model := n.hwModel }
            let db' :=
              match n.position with
              | some pos => { da with latitude := pos.latitude, longitude := pos.longitude,
                                      altitude := pos.altitude }
              | none => da
            match n.deviceMetrics with
            | some m => { db' with battery_level := m.batteryLevel, voltage := m.voltage }
            | none => db'
        | none => d0
      let d2 : NodeData :=
        match p.decoded.portnum, p.decoded.user with
        | some "NODEINFO_APP", some u =>
            { d1 with short_name := u.shortName, long_name := u.longName,
                      hardware_model := u.hwModel }
        | _, _ => d1
      let d3 : NodeData :=
        match p.decoded.portnum, p.decoded.position with
        | some "POSITION_APP", some pos =>
            { d2 with latitude := pos.latitude, longitude := pos.longitude,
                      altitude := pos.altitude }
        | _, _ => d2
      let d4 : NodeData :=
        match p.decoded.portnum, p.decoded.deviceMetrics with
        | some "TELEMETRY_APP", some m =>
            { d3 with battery_level := m.batteryLevel, voltage := m.voltage }
        | _, _ => d3
      some d4

/-- A row of the `nodes` table; columns no modelled path reads
(`firmware_version`, `is_charging`, `is_powered`, `created_at`,
`updated_at`) are omitted. -/
structure NodeRow where
  node_id : String
  node_num : Option Nat
  short_name : Option String
  long_name : Option String
  latitude : Option ℚ
  longitude : Option ℚ
  altitude : Option ℚ
  last_seen : Nat
  first_seen : Nat
  total_packets_received : Nat
  hardware_model : Option String
  is_mqtt : Bool
  battery_level : Option Int
  voltage : Option ℚ
  last_battery_update : Option Nat
  is_ignored : Bool
  is_airplane : Bool
  last_name_update : Option Nat
  deriving Repr, DecidableEq

/-- Embedding of `NodeDatabase.upsert_node` (libnode_db.py), restricted to
the row keyed by the node id: `existing` is the current row or `none`.
On update: always-fields overwrite when supplied; names only when the last
name update is at least 24 h old (`hours_since_update >= 24`, false for a
clock that went backwards, which `Nat` subtraction also yields);
`is_airplane` is recomputed exactly when an altitude is supplied
(threshold 750, strict).  On insert the row is built from the supplied
dictionary alone, so `is_airplane` keeps the column default `0`. -/
def upsertNode (existing : Option NodeRow) (d : NodeData) (now : Nat) : NodeRow :=
  match existing with
  | some r =>
      let shouldNames : Bool :=
        match r.last_name_update with
        | none => true
        | some tlast => decide (24 ≤ (now - tlast) / 3600)
      { r with
        node_num := if d.node_num.isSome then d.node_num else r.node_num,
        latitude := if d.latitude.isSome then d.latitude else r.latitude,
        longitude := if d.longitude.isSome then d.longitude else r.longitude,
        altitude := if d.altitude.isSome then d.altitude else r.altitude,
        hardware_model := if d.hardware_model.isSome then d.hardware_model else r.hardware_model,
        is_mqtt := d.is_mqtt,
        battery_level := if d.battery_level.isSome then d.battery_level else r.battery_level,
        voltage := if d.voltage.isSome then d.voltage else r.voltage,
        short_name := if shouldNames && d.short_name.isSome then d.short_name else r.short_name,
        long_name := if shouldNames && d.long_name.isSome then d.long_name else r.long_name,
        last_name_update := if shouldNames then some now else r.last_name_update,
        is_airplane :=
          match d.altitude with
          | some a => decide (750 < a)
          | none => r.is_airplane,
        last_seen := now,
        total_packets_received := r.total_packets_received + 1,
        last_battery_update := if d.battery_level.isSome then some now else r.last_battery_update }
  | none =>
      { node_id := d.node_id, node_num := d.node_num,
        short_name := d.short_name, long_name := d.long_name,
        latitude := d.latitude, longitude := d.longitude, altitude := d.altitude,
        last_seen := now, first_seen := now, total_packets_received := 1,
        hardware_model := d.hardware_model, is_mqtt := d.is_mqtt,
        battery_level := d.battery_level, voltage := d.voltage,
        last_battery_update := if d.battery_level.isSome then some now else none,
        is_ignored := false, is_airplane := false,
        last_name_update := some now }

/-- Embedding of `_update_topology` (node_tracking.py): gated on both hop
fields being present and nonzero (Python truthiness) and on a local node
id that is a nonempty string different from the source; when it fires,
the `(source, local)` edge row is written through `update_topology` with
the packet's SNR, RSSI and derived hop count.  Returns the written edge
row or `none` when no update happens. -/
def updateTopologyFromPacket (p : Packet) (myNodeId : Option String)
    (existingEdge : Option TopoEdge) (now : Nat) : Option TopoEdge :=
  match p.fromId with
  | none => none
  | some src =>
      match p.hopStart, p.hopLimit with
      | some hs, some hl =>
          if hs ≠ 0 ∧ hl ≠ 0 then
            match myNodeId with
            | some my =>
                if my ≠ "" ∧ src ≠ my then
                  some (updateTopology existingEdge p.rxSnr p.rxRssi (some (hs - hl)) now)
                else none
            | none => none
          else none
      | _, _ => none

/-- A stored `packet_history` row: the auto-increment rowid plus the data. -/
structure PacketRow where
  id : Nat
  data : PacketData
  deriving Repr, DecidableEq

/-- The `packet_history` table: its rows and the next auto-increment id. -/
structure PHState where
  rows : List PacketRow
  nextId : Nat
  deriving Repr, DecidableEq

/-- The scan order of `ORDER BY received_at_utc ASC` over the
`idx_packet_time` index: receive time ascending, ties in rowid order. -/
def rowLe (a b : PacketRow) : Bool :=
  decide (a.data.received_at < b.data.received_at ∨
    (a.data.received_at = b.data.received_at ∧ a.id ≤ b.id))

/-- Embedding of `NodeDatabase.insert_packet` (libnode_db.py): append the
row, count the rows of the packet's node, and when the count exceeds the
cap delete the `count - cap` oldest rows of that node (by receive time
ascending). -/
def insertPacket (st : PHState) (p : PacketData) (maxPerNode : Nat) : PHState :=
  let row : PacketRow := { id := st.nextId, data := p }
  let rows1 := st.rows ++ [row]
  let nodeRows := rows1.filter (fun r => r.data.node_id == p.node_id)
  let count := nodeRows.length
  if maxPerNode < count then
    let deleteCount := count - maxPerNode
    let victims := ((nodeRows.mergeSort rowLe).take deleteCount).map (fun r => r.id)
    { rows := rows1.filter (fun r => decide (r.id ∉ victims)), nextId := st.nextId + 1 }
  else
    { rows := rows1, nextId := st.nextId + 1 }

/-- Well-formedness of the packet table: rowids are distinct and below the
auto-increment counter (true of every reachable state). -/
def PHWf (st : PHState) : Prop :=
  (st.rows.map (fun r => r.id)).Nodup ∧ ∀ r ∈ st.rows, r.id < st.nextId

/-- Number of stored rows of one node. -/
def nodeCount (st : PHState) (n : String) : Nat :=
  (st.rows.filter (fun r => r.data.node_id == n)).length

/-- The empty packet table. -/
def emptyPH : PHState := { rows := [], nextId := 0 }

/-- A minimal packet-history entry for one node at one receive time. -/
def mkPkt (n : String) (t : Nat) : PacketData :=
  { node_id := n, received_at := t, packet_type := none, channel_index := 0,
    hop_start := none, hop_limit := none, hops_away := none, via_mqtt := false,
    relay_node_id := none, relay_node_name := none, rx_snr := none,
    rx_rssi := none, message_text := none }

/-- Insert a sequence of packets for one node, in receive-time order,
starting from the empty table. -/
def runInserts (n : String) (ts : List Nat) (maxPerNode : Nat) : PHState :=
  ts.foldl (fun st t => insertPacket st (mkPkt n t) maxPerNode) emptyPH

/-- The rows that `runInserts` appends, with their assigned rowids. -/
def enumRows (n : String) (ts : List Nat) (start : Nat) : List PacketRow :=
  match ts with
  | [] => []
  | t :: rest => { id := start, data := mkPkt n t } :: enumRows n rest (start + 1)

/-- Status of a probe attempt row. -/
inductive AttemptStatus where
  | pending
  | completed
  | timeout
  deriving Repr, DecidableEq

/-- A row of the `traceroute_attempts` table. -/
structure TrAttempt where
  id : Nat
  to_node_id : String
  to_node_name : Option String
  requested_at : Nat
  status : AttemptStatus
  completed_at : Option Nat
  traceroute_id : Option Nat
  deriving Repr, DecidableEq

/-- A row of the `telemetry_requests` table. -/
structure TelAttempt where
  id : Nat
  to_node_id : String
  to_node_name : Option String
  requested_at : Nat
  status : AttemptStatus
  completed_at : Option Nat
  rx_snr : Option ℚ
  rx_rssi : Option ℚ
  relay_node_id : Option String
  relay_node_name : Option String
  hops_away : Option Int
  deriving Repr, DecidableEq

/-- The order of `ORDER BY requested_at_utc DESC LIMIT 1` over the per-time index:
request time, ties broken by rowid (larger rowid = inserted later). -/
def trKeyLt (a b : TrAttempt) : Bool :=
  decide (a.requested_at < b.requested_at ∨
    (a.requested_at = b.requested_at ∧ a.id < b.id))

/-- The row selected by the `complete_traceroute_attempt` subquery. -/
def pickMostRecentTr (l : List TrAttempt) : Option TrAttempt :=
  pickMax trKeyLt l

/-- Embedding of `NodeDatabase.complete_traceroute_attempt` (libnode_db.py):
update the most recent pending attempt to the target to `completed` (also
setting the completion time and the traceroute reference); `(rows, false)`
when there is none. -/
def completeTracerouteAttempt (rows : List TrAttempt) (target : String)
    (trId : Option Nat) (now : Nat) : List TrAttempt × Bool :=
  match pickMostRecentTr (rows.filter
      (fun r => r.to_node_id == target && r.status == AttemptStatus.pending)) with
  | none => (rows, false)
  | some sel =>
      (rows.map (fun r =>
        if r.id == sel.id then
          { r with status := AttemptStatus.completed, completed_at := some now,
                   traceroute_id := trId }
        else r), true)

/-- Same selection order for telemetry request rows. -/
def telKeyLt (a b : TelAttempt) : Bool :=
  decide (a.requested_at < b.requested_at ∨
    (a.requested_at = b.requested_at ∧ a.id < b.id))

/-- The row selected by the `complete_telemetry_request` subquery. -/
def pickMostRecentTel (l : List TelAttempt) : Option TelAttempt :=
  pickMax telKeyLt l

/-- Embedding of `NodeDatabase.complete_telemetry_request` (libnode_db.py):
update the most recent pending request to the responding node to
`completed`, storing the response's SNR, RSSI, relay identity/name and
hops-away; `(rows, false)` when there is none. -/
def completeTelemetryRequest (rows : List TelAttempt) (fromNode : String)
    (snr : Option ℚ) (rssi : Option ℚ) (relayId relayName : Option String)
    (hops : Option Int) (now : Nat) : List TelAttempt × Bool :=
  match pickMostRecentTel (rows.filter
      (fun r => r.to_node_id == fromNode && r.status == AttemptStatus.pending)) with
  | none => (rows, false)
  | some sel =>
      (rows.map (fun r =>
        if r.id == sel.id then
          { r with status := AttemptStatus.completed, completed_at := some now,
                   rx_snr := snr, rx_rssi := rssi, relay_node_id := relayId,
                   relay_node_name := relayName, hops_away := hops }
        else r), true)

/-- A row of the `traceroutes` table (the columns the telemetry-scheduler
query joins on). -/
structure TracerouteRow where
  id : Nat
  from_node_id : String
  to_node_id : Option String
  received_at : Nat
  deriving Repr, DecidableEq

/-- SQL `MAX` over a list of values (`none` for the empty group). -/
def listMaxN (l : List Nat) : Option Nat :=
  l.foldl (fun acc t =>
    match acc with
    | none => some t
    | some m => some (max m t)) none

/-- SQL `MAX(tr.completed_at_utc)` over the rows joined by
`tr.to_node_id = n AND tr.status = 'completed'`. -/
def lastCompletedTelemetry (tels : List TelAttempt) (n : String) : Option Nat :=
  listMaxN ((tels.filter
    (fun a => a.to_node_id == n && a.status == AttemptStatus.completed)).filterMap
    (fun a => a.completed_at))

/-- SQL `MAX(t.received_at_utc)` over the traceroutes joined by
`t.to_node_id = n`. -/
def lastTracerouteTo (trs : List TracerouteRow) (n : String) : Option Nat :=
  listMaxN ((trs.filter (fun t => t.to_node_id == some n)).map
    (fun t => t.received_at))

/-- The WHERE/HAVING filter of `get_nodes_needing_telemetry_request`
(libnode_db.py): active within the threshold, numeric id present,
optionally non-mqtt, last completed telemetry request absent or older than
the request cutoff, and — only when `skip_recent_traceroutes` — last
traceroute absent or older than the traceroute cutoff. -/
def telemetryNeedPred (tels : List TelAttempt) (trs : List TracerouteRow)
    (activeCutoff requestCutoff trCutoff : Nat) (excludeMqtt skip : Bool)
    (nd : NodeRow) : Bool :=
  decide (activeCutoff ≤ nd.last_seen) && nd.node_num.isSome &&
  (!excludeMqtt || !nd.is_mqtt) &&
  (match lastCompletedTelemetry tels nd.node_id with
   | none => true
   | some t => decide (t < requestCutoff)) &&
  (!skip ||
   (match lastTracerouteTo trs nd.node_id with
    | none => true
    | some t => decide (t < trCutoff)))

/-- The order `ORDER BY (never-requested first), last_telemetry_request_utc ASC`. -/
def telemetryOrderLe (tels : List TelAttempt) (a b : NodeRow) : Bool :=
  let ka : Nat × Nat :=
    match lastCompletedTelemetry tels a.node_id with
    | none => (0, 0)
    | some t => (1, t)
  let kb : Nat × Nat :=
    match lastCompletedTelemetry tels b.node_id with
    | none => (0, 0)
    | some t => (1, t)
  decide (ka.1 < kb.1 ∨ (ka.1 = kb.1 ∧ ka.2 ≤ kb.2))

/-- Embedding of `NodeDatabase.get_nodes_needing_telemetry_request`
(libnode_db.py): filter, order (never-requested first, then oldest
completed request first), and cap at `limit`.  The cutoffs are derived
from the wall clock exactly as in the source. -/
def getNodesNeedingTelemetryRequest (nodes : List NodeRow)
    (tels : List TelAttempt) (trs : List TracerouteRow)
    (now activeThresholdMinutes requestAgeHours trAgeHours : Nat)
    (excludeMqtt skip : Bool) (limit : Nat) : List NodeRow :=
  let activeCutoff := now - activeThresholdMinutes * 60
  let requestCutoff := now - requestAgeHours * 3600
  let trCutoff := now - trAgeHours * 3600
  (((nodes.filter (telemetryNeedPred tels trs activeCutoff requestCutoff
      trCutoff excludeMqtt skip)).mergeSort (telemetryOrderLe tels)).take limit)

/-- A direct-connection record of the coverage map (`/api/map-data`). -/
structure ConnData where
  src : String
  dst : String
  rssi : Option ℚ
  snr : Option ℚ
  tag : String
  packetCount : Nat
  deriving Repr, DecidableEq

/-- Python's `tuple(sorted([a, b]))`: the unordered pair key. -/
def pairKey (a b : String) : String × String :=
  if a ≤ b then (a, b) else (b, a)

/-- The per-relay indirect coverage buckets, one per hop tier. -/
structure HopTiers where
  hop1 : List String
  hop2 : List String
  hop3 : List String
  hop4plus : List String
  deriving Repr, DecidableEq

/-- Empty tier buckets. -/
def HopTiers.empty : HopTiers := ⟨[], [], [], []⟩

/-- The hop-distribution histogram of the coverage map. -/
structure HopStats where
  hop0 : Nat
  hop1 : Nat
  hop2 : Nat
  hop3 : Nat
  hop4plus : Nat
  deriving Repr, DecidableEq

/-- The accumulator state of the coverage-map loops: the deduplicated
direct-connection dictionary, the per-relay indirect coverage dictionary,
and the hop histogram (Python dicts preserve insertion order, hence
association lists). -/
structure CoverageState where
  direct : List ((String × String) × ConnData)
  indirect : List (String × HopTiers)
  stats : HopStats
  deriving Repr, DecidableEq

/-- Dictionary lookup on an association list. -/
def alistFind {K V : Type} [BEq K] (m : List (K × V)) (k : K) : Option V :=
  (m.find? (fun kv => kv.1 == k)).map (fun kv => kv.2)

/-- Dictionary store on an association list: replace in place when the key
exists, append otherwise. -/
def alistSet {K V : Type} [BEq K] (m : List (K × V)) (k : K) (v : V) :
    List (K × V) :=
  if (m.find? (fun kv => kv.1 == k)).isSome then
    m.map (fun kv => if kv.1 == k then (k, v) else kv)
  else m ++ [(k, v)]

/-- Python `set.add` on a set modelled as a duplicate-free list. -/
def addMem (s : List String) (x : String) : List String :=
  if x ∈ s then s else s ++ [x]

/-- One row produced by the coverage map's packet-history query (source 1):
relay present, `!`-prefixed and in-window. -/
structure PacketObs where
  node_id : String
  relay_node_id : String
  hops_away : Option Int
  rx_snr : Option ℚ
  rx_rssi : Option ℚ
  received_at : Nat
  deriving Repr, DecidableEq

/-- The packet-history query of `/api/map-data`: rows whose relay is
present, a full `!` id, and within the time window.  (`DISTINCT` and the
descending order only affect duplicate multiplicities, which no claim
reads.) -/
def packetRelayObs (rows : List PacketRow) (cutoff : Nat) : List PacketObs :=
  rows.filterMap (fun r =>
    match r.data.relay_node_id with
    | some rel =>
        if isBangId rel && decide (cutoff ≤ r.data.received_at) then
          some { node_id := r.data.node_id, relay_node_id := rel,
                 hops_away := r.data.hops_away, rx_snr := r.data.rx_snr,
                 rx_rssi := r.data.rx_rssi, received_at := r.data.received_at }
        else none
    | none => none)

/-- The loop body of `/api/map-data` source 1 (node_web_server.py,
packet observations): `hops_away or 0`; a zero-hop observation counts in
the histogram and, when the relay (and, for a new pair, the source) has a
position, records or increments the unordered direct edge; a nonzero-hop
observation with both endpoints positioned adds the source to the relay's
hop-tier bucket. -/
def processPacketObs (lookup : List String) (st : CoverageState)
    (o : PacketObs) : CoverageState :=
  let hops : Int := o.hops_away.getD 0
  if hops = 0 then
    let st1 : CoverageState :=
      { st with stats := { st.stats with hop0 := st.stats.hop0 + 1 } }
    if o.relay_node_id ∈ lookup then
      let key := pairKey o.node_id o.relay_node_id
      match alistFind st1.direct key with
      | some c =>
          { st1 with direct :=
              alistSet st1.direct key ({ c with packetCount := c.packetCount + 1 }) }
      | none =>
          if o.node_id ∈ lookup then
            let newConn : ConnData :=
              { src := o.node_id, dst := o.relay_node_id,
                rssi := o.rx_rssi, snr := o.rx_snr,
                tag := "relay-packet", packetCount := 1 }
            { st1 with direct := alistSet st1.direct key newConn }
          else st1
    else st1
  else
    if o.node_id ∈ lookup ∧ o.relay_node_id ∈ lookup then
      let tiers := (alistFind st.indirect o.relay_node_id).getD HopTiers.empty
      if hops = 1 then
        { st with
          indirect := alistSet st.indirect o.relay_node_id
            ({ tiers with hop1 := addMem tiers.hop1 o.node_id }),
          stats := { st.stats with hop1 := st.stats.hop1 + 1 } }
      else if hops = 2 then
        { st with
          indirect := alistSet st.indirect o.relay_node_id
            ({ tiers with hop2 := addMem tiers.hop2 o.node_id }),
          stats := { st.stats with hop2 := st.stats.hop2 + 1 } }
      else if hops = 3 then
        { st with
          indirect := alistSet st.indirect o.relay_node_id
            ({ tiers with hop3 := addMem tiers.hop3 o.node_id }),
          stats := { st.stats with hop3 := st.stats.hop3 + 1 } }
      else
        { st with
          indirect := alistSet st.indirect o.relay_node_id
            ({ tiers with hop4plus := addMem tiers.hop4plus o.node_id }),
          stats := { st.stats with hop4plus := st.stats.hop4plus + 1 } }
    else st

/-- One row produced by the coverage map's telemetry query (source 3):
completed, relay present, `!`-prefixed and completed within the window. -/
structure TelObs where
  to_node_id : String
  relay_node_id : String
  hops_away : Option Int
  rx_snr : Option ℚ
  rx_rssi : Option ℚ
  completed_at : Nat
  deriving Repr, DecidableEq

/-- The telemetry query of `/api/map-data`. -/
def telemetryRelayObs (rows : List TelAttempt) (cutoff : Nat) : List TelObs :=
  rows.filterMap (fun r =>
    match r.relay_node_id, r.completed_at with
    | some rel, some t =>
        if r.status == AttemptStatus.completed && isBangId rel &&
            decide (cutoff ≤ t) then
          some { to_node_id := r.to_node_id, relay_node_id := rel,
                 hops_away := r.hops_away, rx_snr := r.rx_snr,
                 rx_rssi := r.rx_rssi, completed_at := t }
        else none
    | _, _ => none)

/-- The loop body of `/api/map-data` source 3 (telemetry observations):
same partition as source 1, except that the zero-hop branch requires both
endpoints positioned even to increment an existing pair, and new direct
pairs are tagged `telemetry`. -/
def processTelemetryObs (lookup : List String) (st : CoverageState)
    (o : TelObs) : CoverageState :=
  let hops : Int := o.hops_away.getD 0
  if hops = 0 then
    let st1 : CoverageState :=
      { st with stats := { st.stats with hop0 := st.stats.hop0 + 1 } }
    if o.to_node_id ∈ lookup ∧ o.relay_node_id ∈ lookup then
      let key := pairKey o.to_node_id o.relay_node_id
      match alistFind st1.direct key with
      | some c =>
          { st1 with direct :=
              alistSet st1.direct key ({ c with packetCount := c.packetCount + 1 }) }
      | none =>
          let newConn : ConnData :=
            { src := o.to_node_id, dst := o.relay_node_id,
              rssi := o.rx_rssi, snr := o.rx_snr,
              tag := "telemetry", packetCount := 1 }
          { st1 with direct := alistSet st1.direct key newConn }
    else st1
  else
    if o.to_node_id ∈ lookup ∧ o.relay_node_id ∈ lookup then
      let tiers := (alistFind st.indirect o.relay_node_id).getD HopTiers.empty
      if hops = 1 then
        { st with
          indirect := alistSet st.indirect o.relay_node_id
            ({ tiers with hop1 := addMem tiers.hop1 o.to_node_id }),
          stats := { st.stats with hop1 := st.stats.hop1 + 1 } }
      else if hops = 2 then
        { st with
          indirect := alistSet st.indirect o.relay_node_id
            ({ tiers with hop2 := addMem tiers.hop2 o.to_node_id }),
          stats := { st.stats with hop2 := st.stats.hop2 + 1 } }
      else if hops = 3 then
        { st with
          indirect := alistSet st.indirect o.relay_node_id
            ({ tiers with hop3 := addMem tiers.hop3 o.to_node_id }),
          stats := { st.stats with hop3 := st.stats.hop3 + 1 } }
      else
        { st with
          indirect := alistSet st.indirect o.relay_node_id
            ({ tiers with hop4plus := addMem tiers.hop4plus o.to_node_id }),
          stats := { st.stats with hop4plus := st.stats.hop4plus + 1 } }
    else st

/-- The hop-tier bucket an indirect observation is filed under
(1, 2, 3 or 4+). -/
def tierBucket (t : HopTiers) (hops : Int) : List String :=
  if hops = 1 then t.hop1
  else if hops = 2 then t.hop2
  else if hops = 3 then t.hop3
  else t.hop4plus

/-- The scenario packet of spec §8 end-to-end test 1: a direct text
message. -/
def scenarioPacket : Packet :=
  { fromId := some "!11111111", fromNum := some 0x11111111, channel := none,
    hopStart := some 3, hopLimit := some 3, rxSnr := some 4,
    rxRssi := some (-80), viaMqtt := false, relayNode := none,
    decoded := { portnum := some "TEXT_MESSAGE_APP", text := some "hi",
                 user := none, position := none, deviceMetrics := none } }

/-- A packet that carries both hop fields with value zero. -/
def pktZeroHops : Packet :=
  { fromId := some "!11111111", fromNum := some 0x11111111, channel := none,
    hopStart := some 0, hopLimit := some 0, rxSnr := none, rxRssi := none,
    viaMqtt := false, relayNode := none,
    decoded := { portnum := some "TEXT_MESSAGE_APP", text := some "hi",
                 user := none, position := none, deviceMetrics := none } }

/-- Sample traceroute attempts: same target, distinct request times. -/
def trA : TrAttempt := ⟨0, "!aaaa0001", none, 5, AttemptStatus.pending, none, none⟩

/-- The later pending traceroute attempt for the same target. -/
def trB : TrAttempt := ⟨1, "!aaaa0001", none, 10, AttemptStatus.pending, none, none⟩

/-- Sample telemetry requests: same target, distinct request times. -/
def telA : TelAttempt :=
  ⟨0, "!bbbb0002", none, 5, AttemptStatus.pending, none, none, none, none, none, none⟩

/-- The later pending telemetry request for the same target. -/
def telB : TelAttempt :=
  ⟨1, "!bbbb0002", none, 10, AttemptStatus.pending, none, none, none, none, none, none⟩

/-- The scenario clock of the telemetry-scheduler skip test. -/
def nowC : Nat := 1000000

/-- Spec §8 scenario 5: node `!44444444`, active 10 minutes ago, no
telemetry ever requested. -/
def node44 : NodeRow :=
  { node_id := "!44444444", node_num := some 0x44444444, short_name := none,
    long_name := none, latitude := none, longitude := none, altitude := none,
    last_seen := nowC - 600, first_seen := 0, total_packets_received := 5,
    hardware_model := none, is_mqtt := false, battery_level := none,
    voltage := none, last_battery_update := none, is_ignored := false,
    is_airplane := false, last_name_update := none }

/-- A traceroute to `!44444444` received one hour before `nowC`. -/
def tr44 : TracerouteRow := ⟨0, "!44444444", some "!44444444", nowC - 3600⟩

/-- A traceroute to `!44444444` older than the 4-hour recency window. -/
def tr44old : TracerouteRow := ⟨0, "!44444444", some "!44444444", 980000⟩

/-- A driver-table entry whose node number ends in byte `0xdd`. -/
def ifn1 : IfaceNode :=
  { key := some 0xaabbccdd, userId := some "!aabbccdd", longName := some "Alpha",
    shortName := none, hwModel := none, snr := some 5, lastHeard := some 100,
    position := none, deviceMetrics := none }

/-- A second driver-table entry with the same low byte, heard more
recently. -/
def ifn2 : IfaceNode :=
  { key := some 0x112233dd, userId := some "!112233dd", longName := some "Beta",
    shortName := none, hwModel := none, snr := some 2, lastHeard := some 200,
    position := none, deviceMetrics := none }

/-- The candidate built from `ifn1`. -/
def relayC1 : RelayMatch :=
  { id := "!aabbccdd", name := "Alpha", num := 0xaabbccdd, snr := 5,
    lastHeard := 100, totalPackets := 0 }

/-- The candidate built from `ifn2`. -/
def relayC2 : RelayMatch :=
  { id := "!112233dd", name := "Beta", num := 0x112233dd, snr := 2,
    lastHeard := 200, totalPackets := 0 }

/-- A two-hop packet carrying the partial relay byte `0xdd`. -/
def pktRelay : Packet :=
  { fromId := some "!11111111", fromNum := some 0x11111111, channel := none,
    hopStart := some 3, hopLimit := some 1, rxSnr := none, rxRssi := none,
    viaMqtt := false, relayNode := some 0xdd,
    decoded := { portnum := none, text := none, user := none, position := none,
                 deviceMetrics := none } }

/-- A two-node position lookup for the coverage-map observations. -/
def lookupW : List String := ["!aa", "!bb"]

/-- The empty coverage-map accumulator. -/
def stW : CoverageState := ⟨[], [], ⟨0, 0, 0, 0, 0⟩⟩

/-- A zero-hop packet observation relayed by `!bb`. -/
def pobs0 : PacketObs := ⟨"!aa", "!bb", some 0, none, none, 50⟩

/-- A two-hop packet observation relayed by `!bb`. -/
def pobs2 : PacketObs := ⟨"!aa", "!bb", some 2, none, none, 50⟩

/-- A telemetry observation with no hop count (treated as zero hops). -/
def tobs0 : TelObs := ⟨"!aa", "!bb", none, none, none, 50⟩

/-- A three-hop telemetry observation relayed by `!bb`. -/
def tobs3 : TelObs := ⟨"!aa", "!bb", some 3, none, none, 50⟩

/-- Node data carrying an altitude above the airplane threshold. -/
def altitudeData : NodeData :=
  { node_id := "!deadbeef", node_num := some 0xdeadbeef, is_mqtt := false,
    short_name := none, long_name := none, hardware_model := none,
    latitude := none, longitude := none, altitude := some 800,
    battery_level := none, voltage := none }

theorem pyOr_some_zero (x : ℚ) : pyOr (some x) 0 = x := by
  by_cases h : x = 0 <;> simp [pyOr, h]

theorem runTopology_append (cs : List TopoCall) (c : TopoCall) :
    runTopology (cs ++ [c]) =
      some (updateTopology (runTopology cs) c.snr c.rssi c.hop c.now) := by
  simp [runTopology, List.foldl_append]

/-- Auxiliary invariant for the running SNR mean: when every call carries an
SNR sample, the stored average is the arithmetic mean and the packet counter
is the number of calls. -/
theorem runTopology_snr_mean (calls : List TopoCall) (hne : calls ≠ [])
    (hall : ∀ c ∈ calls, c.snr.isSome) :
    ∃ e, runTopology calls = some e ∧
      e.total_packets = calls.length ∧
      e.avg_snr = some ((calls.map (fun c => c.snr.getD 0)).sum / (calls.length : ℚ)) := by
  induction calls using List.reverseRecOn with
  | nil => exact absurd rfl hne
  | append_singleton cs c ih =>
    rcases Option.isSome_iff_exists.mp (hall c (by simp)) with ⟨s, hs⟩
    by_cases hcs : cs = []
    · subst hcs
      refine ⟨updateTopology none c.snr c.rssi c.hop c.now, by simp [runTopology], ?_, ?_⟩
      · simp [updateTopology]
      · simp [updateTopology, hs]
    · obtain ⟨e, he, htot, havg⟩ := ih hcs (fun x hx => hall x (by simp [hx]))
      rw [runTopology_append, he]
      refine ⟨_, rfl, ?_, ?_⟩
      · simp [updateTopology, hs, htot]
      · have hk : ((cs.length : ℚ)) ≠ 0 := by
          exact_mod_cast fun h => hcs (List.length_eq_zero.mp (by exact_mod_cast h))
        have hsum : (List.map (fun c => c.snr.getD 0) (cs ++ [c])).sum
            = (List.map (fun c => c.snr.getD 0) cs).sum + s := by
          simp [hs]
        simp only [updateTopology, hs, havg, htot, pyOr_some_zero, hsum,
          List.length_append, List.length_singleton]
        congr 1
        rw [div_mul_cancel₀ _ hk]

/-- Auxiliary invariant for the running RSSI mean, symmetric to
`runTopology_snr_mean`. -/
theorem runTopology_rssi_mean (calls : List TopoCall) (hne : calls ≠ [])
    (hall : ∀ c ∈ calls, c.rssi.isSome) :
    ∃ e, runTopology calls = some e ∧
      e.total_packets = calls.length ∧
      e.avg_rssi = some ((calls.map (fun c => c.rssi.getD 0)).sum / (calls.length : ℚ)) := by
  induction calls using List.reverseRecOn with
  | nil => exact absurd rfl hne
  | append_singleton cs c ih =>
    rcases Option.isSome_iff_exists.mp (hall c (by simp)) with ⟨r, hr⟩
    by_cases hcs : cs = []
    · subst hcs
      refine ⟨updateTopology none c.snr c.rssi c.hop c.now, by simp [runTopology], ?_, ?_⟩
      · simp [updateTopology]
      · simp [updateTopology, hr]
    · obtain ⟨e, he, htot, havg⟩ := ih hcs (fun x hx => hall x (by simp [hx]))
      rw [runTopology_append, he]
      refine ⟨_, rfl, ?_, ?_⟩
      · simp [updateTopology, hr, htot]
      · have hk : ((cs.length : ℚ)) ≠ 0 := by
          exact_mod_cast fun h => hcs (List.length_eq_zero.mp (by exact_mod_cast h))
        have hsum : (List.map (fun c => c.rssi.getD 0) (cs ++ [c])).sum
            = (List.map (fun c => c.rssi.getD 0) cs).sum + r := by
          simp [hr]
        simp only [updateTopology, hr, havg, htot, pyOr_some_zero, hsum,
          List.length_append, List.length_singleton]
        congr 1
        rw [div_mul_cancel₀ _ hk]

/-- Claim C3: for an edge created and then updated by k `update_topology`
calls that each supply an SNR sample s₁…sₖ, the stored `avg_snr` equals
(s₁+…+sₖ)/k (exactly, on the ℚ model), the per-update rule being
new mean = (old mean × old count + sample) / (old count + 1); the same holds
independently for RSSI (the other signal's samples may be present or
absent in any call). -/
theorem updateTopology_running_mean :
    (∀ e : TopoEdge, ∀ m s : ℚ, ∀ rssi hop t, e.avg_snr = some m →
        (updateTopology (some e) (some s) rssi hop t).avg_snr =
          some ((m * (e.total_packets : ℚ) + s) / ((e.total_packets : ℚ) + 1))) ∧
    (∀ e : TopoEdge, ∀ m r : ℚ, ∀ snr hop t, e.avg_rssi = some m →
        (updateTopology (some e) snr (some r) hop t).avg_rssi =
          some ((m * (e.total_packets : ℚ) + r) / ((e.total_packets : ℚ) + 1))) ∧
    (∀ calls : List TopoCall, calls ≠ [] → (∀ c ∈ calls, c.snr.isSome) →
        (runTopology calls).map TopoEdge.avg_snr =
          some (some ((calls.map (fun c => c.snr.getD 0)).sum / (calls.length : ℚ)))) ∧
    (∀ calls : List TopoCall, calls ≠ [] → (∀ c ∈ calls, c.rssi.isSome) →
        (runTopology calls).map TopoEdge.avg_rssi =
          some (some ((calls.map (fun c => c.rssi.getD 0)).sum / (calls.length : ℚ)))) := by
  refine ⟨?_, ?_, ?_, ?_⟩
  · intro e m s rssi hop t hm
    simp [updateTopology, hm, pyOr_some_zero]
  · intro e m r snr hop t hm
    cases snr <;> simp [updateTopology, hm, pyOr_some_zero]
  · intro calls hne hall
    obtain ⟨e, he, _, havg⟩ := runTopology_snr_mean calls hne hall
    rw [he]
    simp [havg]
  · intro calls hne hall
    obtain ⟨e, he, _, havg⟩ := runTopology_rssi_mean calls hne hall
    rw [he]
    simp [havg]

/-- Witness for `updateTopology_running_mean` at concrete inputs: two calls
with SNR samples 1 and 2 give average 3/2, two calls with RSSI samples -80
and -90 give average -85. -/
theorem updateTopology_running_mean_witness :
    (([⟨some 1, none, none, 0⟩, ⟨some 2, none, none, 1⟩] : List TopoCall) ≠ [] ∧
      (runTopology [⟨some 1, none, none, 0⟩, ⟨some 2, none, none, 1⟩]).map TopoEdge.avg_snr =
        some (some ((3 : ℚ) / 2))) ∧
    (runTopology [⟨none, some (-80), none, 0⟩, ⟨none, some (-90), none, 1⟩]).map TopoEdge.avg_rssi =
      some (some ((-85 : ℚ))) := by
  refine ⟨⟨by simp, ?_⟩, ?_⟩
  · have h := updateTopology_running_mean.2.2.1
      [⟨some 1, none, none, 0⟩, ⟨some 2, none, none, 1⟩] (by simp) (by simp)
    rw [h]
    norm_num
  · have h := updateTopology_running_mean.2.2.2
      [⟨none, some (-80), none, 0⟩, ⟨none, some (-90), none, 1⟩] (by simp) (by simp)
    rw [h]
    norm_num

/-- Claim C4 (refuted by the code): on one edge, an `update_topology` call
with SNR sample 0 (creating the edge) followed by one with SNR sample 5
leaves `min_snr = 5`, `avg_snr = 5/2` and `max_snr = 5`, so
`min_snr ≤ avg_snr` fails: the source's `existing['min_snr'] or snr`
treats the stored minimum 0.0 as missing (0.0 is falsy in Python) and
restarts the minimum from the new sample. -/
theorem updateTopology_min_exceeds_avg :
    (updateTopology (some (updateTopology none (some 0) none none 0))
        (some 5) none none 1).min_snr = some 5 ∧
    (updateTopology (some (updateTopology none (some 0) none none 0))
        (some 5) none none 1).avg_snr = some (5 / 2) ∧
    (updateTopology (some (updateTopology none (some 0) none none 0))
        (some 5) none none 1).max_snr = some 5 ∧
    ¬ ((5 : ℚ) ≤ 5 / 2) := by
  refine ⟨?_, ?_, ?_, by norm_num⟩ <;> simp [updateTopology, pyOr]

theorem foldMax_cons {A : Type} (lt : A → A → Bool) (m x : A) (xs : List A) :
    foldMax lt m (x :: xs) = foldMax lt (if lt m x then x else m) xs := rfl

theorem foldMax_mem {A : Type} (lt : A → A → Bool) (m : A) (l : List A) :
    foldMax lt m l ∈ m :: l := by
  induction l generalizing m with
  | nil => simp [foldMax]
  | cons x xs ih =>
    rw [foldMax_cons]
    have h := ih (if lt m x then x else m)
    by_cases hc : lt m x <;> simp [hc] at h ⊢ <;> tauto

theorem foldMax_maximal {A : Type} (lt : A → A → Bool)
    (htrans : ∀ a b c, lt a b = true → lt b c = true → lt a c = true)
    (hnlt : ∀ a b c, lt a c = true → lt b c = false → lt a b = true)
    (hirr : ∀ a, lt a a = false)
    (m : A) (l : List A) :
    ∀ z ∈ m :: l, lt (foldMax lt m l) z = false := by
  induction l generalizing m with
  | nil =>
    intro z hz
    rw [List.mem_singleton] at hz
    subst hz
    simpa [foldMax] using hirr z
  | cons x xs ih =>
    intro z hz
    rw [foldMax_cons]
    cases hmx : lt m x with
    | true =>
      rw [if_pos rfl]
      have ihx := ih x
      rcases List.mem_cons.mp hz with rfl | hz'
      · cases hbz : lt (foldMax lt x xs) z with
        | false => rfl
        | true =>
            have hbx := ihx x (List.mem_cons_self x xs)
            have := htrans _ _ _ hbz hmx
            rw [this] at hbx
            exact absurd hbx (by simp)
      · exact ihx z hz'
    | false =>
      rw [if_neg (by simp)]
      have ihm := ih m
      rcases List.mem_cons.mp hz with rfl | hz'
      · exact ihm z (List.mem_cons_self z xs)
      · rcases List.mem_cons.mp hz' with rfl | hz2
        · cases hbz : lt (foldMax lt m xs) z with
          | false => rfl
          | true =>
              have hbm := ihm m (List.mem_cons_self m xs)
              have := hnlt _ _ _ hbz hmx
              rw [this] at hbm
              exact absurd hbm (by simp)
        · exact ihm z (List.mem_cons_of_mem m hz2)

theorem pickMax_some_acc {A : Type} (lt : A → A → Bool) (m : A) (l : List A) :
    List.foldl (fun acc x =>
      match acc with
      | none => some x
      | some b => if lt b x then some x else some b) (some m) l =
      some (foldMax lt m l) := by
  induction l generalizing m with
  | nil => rfl
  | cons x xs ih =>
    show List.foldl _ (if lt m x then some x else some m) xs = some (foldMax lt m (x :: xs))
    rw [foldMax_cons]
    cases hc : lt m x with
    | true => simpa [hc] using ih x
    | false => simpa [hc] using ih m

theorem pickMax_eq_foldMax {A : Type} (lt : A → A → Bool) (x : A) (xs : List A) :
    pickMax lt (x :: xs) = some (foldMax lt x xs) := by
  show List.foldl _ (some x) xs = some (foldMax lt x xs)
  exact pickMax_some_acc lt x xs

theorem pickMax_spec {A : Type} (lt : A → A → Bool)
    (htrans : ∀ a b c, lt a b = true → lt b c = true → lt a c = true)
    (hnlt : ∀ a b c, lt a c = true → lt b c = false → lt a b = true)
    (hirr : ∀ a, lt a a = false)
    (l : List A) (sel : A) (hmem : sel ∈ l)
    (hmax : ∀ x ∈ l, x ≠ sel → lt x sel = true) :
    pickMax lt l = some sel := by
  cases l with
  | nil => simp at hmem
  | cons x xs =>
    rw [pickMax_eq_foldMax]
    congr 1
    by_cases he : foldMax lt x xs = sel
    · exact he
    · have h1 := hmax _ (foldMax_mem lt x xs) he
      have h2 := foldMax_maximal lt htrans hnlt hirr x xs sel hmem
      rw [h1] at h2
      exact absurd h2 (by simp)

theorem trKeyLt_trans : ∀ a b c : TrAttempt,
    trKeyLt a b = true → trKeyLt b c = true → trKeyLt a c = true := by
  intro a b c h1 h2
  simp only [trKeyLt, decide_eq_true_eq] at *
  omega

theorem trKeyLt_nlt : ∀ a b c : TrAttempt,
    trKeyLt a c = true → trKeyLt b c = false → trKeyLt a b = true := by
  intro a b c h1 h2
  simp only [trKeyLt, decide_eq_true_eq, decide_eq_false_iff_not] at *
  omega

theorem trKeyLt_irrefl : ∀ a : TrAttempt, trKeyLt a a = false := by
  intro a
  simp only [trKeyLt, decide_eq_false_iff_not]
  omega

theorem telKeyLt_trans : ∀ a b c : TelAttempt,
    telKeyLt a b = true → telKeyLt b c = true → telKeyLt a c = true := by
  intro a b c h1 h2
  simp only [telKeyLt, decide_eq_true_eq] at *
  omega

theorem telKeyLt_nlt : ∀ a b c : TelAttempt,
    telKeyLt a c = true → telKeyLt b c = false → telKeyLt a b = true := by
  intro a b c h1 h2
  simp only [telKeyLt, decide_eq_true_eq, decide_eq_false_iff_not] at *
  omega

theorem telKeyLt_irrefl : ∀ a : TelAttempt, telKeyLt a a = false := by
  intro a
  simp only [telKeyLt, decide_eq_false_iff_not]
  omega

/-- Claim C7: for either attempt kind, completing an attempt changes
exactly the most recent pending row for the target (most recent by request
time, ties by insertion order) to `completed` — storing the completion
data — and leaves every other row unchanged, returning `true`; when no
pending row exists for the target it changes nothing and returns `false`. -/
theorem completeAttempt_spec :
    (∀ (rows : List TrAttempt) (target : String) (trId : Option Nat) (now : Nat),
      rows.filter (fun r => r.to_node_id == target && r.status == AttemptStatus.pending) = [] →
      completeTracerouteAttempt rows target trId now = (rows, false)) ∧
    (∀ (rows : List TrAttempt) (target : String) (trId : Option Nat) (now : Nat)
        (sel : TrAttempt),
      (rows.map (fun r => r.id)).Nodup →
      sel ∈ rows → sel.to_node_id = target → sel.status = AttemptStatus.pending →
      (∀ r ∈ rows, r.to_node_id = target → r.status = AttemptStatus.pending →
        r ≠ sel → trKeyLt r sel = true) →
      completeTracerouteAttempt rows target trId now =
        (rows.map (fun r =>
          if r.id = sel.id then
            { sel with status := AttemptStatus.completed, completed_at := some now,
                       traceroute_id := trId }
          else r), true)) ∧
    (∀ (rows : List TelAttempt) (fromNode : String) (snr : Option ℚ) (rssi : Option ℚ)
        (relayId relayName : Option String) (hops : Option Int) (now : Nat),
      rows.filter (fun r => r.to_node_id == fromNode && r.status == AttemptStatus.pending) = [] →
      completeTelemetryRequest rows fromNode snr rssi relayId relayName hops now =
        (rows, false)) ∧
    (∀ (rows : List TelAttempt) (fromNode : String) (snr : Option ℚ) (rssi : Option ℚ)
        (relayId relayName : Option String) (hops : Option Int) (now : Nat)
        (sel : TelAttempt),
      (rows.map (fun r => r.id)).Nodup →
      sel ∈ rows → sel.to_node_id = fromNode → sel.status = AttemptStatus.pending →
      (∀ r ∈ rows, r.to_node_id = fromNode → r.status = AttemptStatus.pending →
        r ≠ sel → telKeyLt r sel = true) →
      completeTelemetryRequest rows fromNode snr rssi relayId relayName hops now =
        (rows.map (fun r =>
          if r.id = sel.id then
            { sel with status := AttemptStatus.completed, completed_at := some now,
                       rx_snr := snr, rx_rssi := rssi, relay_node_id := relayId,
                       relay_node_name := relayName, hops_away := hops }
          else r), true)) := by
  refine ⟨?_, ?_, ?_, ?_⟩
  · intro rows target trId now h
    simp [completeTracerouteAttempt, h, pickMostRecentTr, pickMax]
  · intro rows target trId now sel hnodup hmem htgt hpend hmax
    have hself : sel ∈ rows.filter
        (fun r => r.to_node_id == target && r.status == AttemptStatus.pending) := by
      rw [List.mem_filter]
      exact ⟨hmem, by simp [htgt, hpend]⟩
    have hpick : pickMostRecentTr (rows.filter
        (fun r => r.to_node_id == target && r.status == AttemptStatus.pending)) = some sel := by
      refine pickMax_spec trKeyLt trKeyLt_trans trKeyLt_nlt trKeyLt_irrefl _ sel hself ?_
      intro x hx hne
      rw [List.mem_filter] at hx
      obtain ⟨hxr, hxp⟩ := hx
      rw [Bool.and_eq_true, beq_iff_eq, beq_iff_eq] at hxp
      exact hmax x hxr hxp.1 hxp.2 hne
    rw [completeTracerouteAttempt, hpick]
    refine congrArg (fun l => (l, true)) ?_
    apply List.map_congr_left
    intro r hr
    by_cases hid : r.id = sel.id
    · have : r = sel := List.inj_on_of_nodup_map hnodup hr hmem hid
      subst this
      simp
    · simp [hid]
  · intro rows fromNode snr rssi relayId relayName hops now h
    simp [completeTelemetryRequest, h, pickMostRecentTel, pickMax]
  · intro rows fromNode snr rssi relayId relayName hops now sel hnodup hmem htgt hpend hmax
    have hself : sel ∈ rows.filter
        (fun r => r.to_node_id == fromNode && r.status == AttemptStatus.pending) := by
      rw [List.mem_filter]
      exact ⟨hmem, by simp [htgt, hpend]⟩
    have hpick : pickMostRecentTel (rows.filter
        (fun r => r.to_node_id == fromNode && r.status == AttemptStatus.pending)) = some sel := by
      refine pickMax_spec telKeyLt telKeyLt_trans telKeyLt_nlt telKeyLt_irrefl _ sel hself ?_
      intro x hx hne
      rw [List.mem_filter] at hx
      obtain ⟨hxr, hxp⟩ := hx
      rw [Bool.and_eq_true, beq_iff_eq, beq_iff_eq] at hxp
      exact hmax x hxr hxp.1 hxp.2 hne
    rw [completeTelemetryRequest, hpick]
    refine congrArg (fun l => (l, true)) ?_
    apply List.map_congr_left
    intro r hr
    by_cases hid : r.id = sel.id
    · have : r = sel := List.inj_on_of_nodup_map hnodup hr hmem hid
      subst this
      simp
    · simp [hid]

/-- Witness for `completeAttempt_spec` at concrete inputs: an empty table
is a no-op returning false; with two pending rows for one target the later
one is completed. -/
theorem completeAttempt_spec_witness :
    completeTracerouteAttempt [] "!aaaa0001" none 0 = ([], false) ∧
    completeTracerouteAttempt [trA, trB] "!aaaa0001" (some 7) 100 =
      ([trA, trB].map (fun r =>
        if r.id = trB.id then
          { trB with status := AttemptStatus.completed, completed_at := some 100,
                     traceroute_id := some 7 }
        else r), true) ∧
    completeTelemetryRequest [] "!bbbb0002" none none none none none 0 = ([], false) ∧
    completeTelemetryRequest [telA, telB] "!bbbb0002" (some 3) (some (-70)) none none
        (some 1) 100 =
      ([telA, telB].map (fun r =>
        if r.id = telB.id then
          { telB with status := AttemptStatus.completed, completed_at := some 100,
                      rx_snr := some 3, rx_rssi := some (-70), relay_node_id := none,
                      relay_node_name := none, hops_away := some 1 }
        else r), true) :=
  ⟨completeAttempt_spec.1 [] "!aaaa0001" none 0 rfl,
   completeAttempt_spec.2.1 [trA, trB] "!aaaa0001" (some 7) 100 trB
     (by decide) (by decide) rfl rfl (by decide),
   completeAttempt_spec.2.2.1 [] "!bbbb0002" none none none none none 0 rfl,
   completeAttempt_spec.2.2.2 [telA, telB] "!bbbb0002" (some 3) (some (-70)) none none
     (some 1) 100 telB (by decide) (by decide) rfl rfl (by decide)⟩

/-- Claim C10 (refuted on the insert path): upserting a brand-new node that
supplies altitude 800 leaves `is_airplane = false` although 800 > 750 — the
insert branch of `upsert_node` writes only the supplied dictionary keys and
`_extract_node_data` never sets `is_airplane`, so the column keeps its
default 0. -/
theorem upsertNode_insert_ignores_altitude :
    (upsertNode none altitudeData 0).is_airplane = false ∧ (750 : ℚ) < 800 :=
  ⟨rfl, by norm_num⟩

/-- Claim C10 as amended: when the node already exists, an upsert that
supplies an altitude recomputes `is_airplane = (altitude > 750)`; when the
upsert inserts the node for the first time, `is_airplane` is `false`
regardless of the supplied altitude. -/
theorem upsertNode_airplane_amended :
    (∀ (r : NodeRow) (d : NodeData) (a : ℚ) (t : Nat), d.altitude = some a →
        (upsertNode (some r) d t).is_airplane = decide (750 < a)) ∧
    (∀ (d : NodeData) (t : Nat), (upsertNode none d t).is_airplane = false) := by
  constructor
  · intro r d a t ha
    simp [upsertNode, ha]
  · intro d t
    rfl

/-- Witness for `upsertNode_airplane_amended`: a second upsert of the
high-altitude node sets the airplane flag. -/
theorem upsertNode_airplane_amended_witness :
    altitudeData.altitude = some 800 ∧
    (upsertNode (some (upsertNode none altitudeData 0)) altitudeData 1).is_airplane =
      decide ((750 : ℚ) < 800) :=
  ⟨rfl, upsertNode_airplane_amended.1 (upsertNode none altitudeData 0) altitudeData 800 1 rfl⟩

/-- Claim C5 (refuted at the zero boundary): a packet carrying
`hopStart = hopLimit = 0` stores **no** `hops_away` (the Python guard
`if packet_data['hop_start'] and packet_data['hop_limit']` treats 0 as
falsy), not `hops_away = 0`. -/
theorem hopsAway_zero_fields_unset :
    (extractPacketData pktZeroHops [] [] 0).map PacketData.hops_away = some none ∧
    some (none : Option Int) ≠ some (some (0 : Int)) := by
  constructor
  · rfl
  · simp

/-- Claim C5 as amended: for every packet whose `hopStart` and `hopLimit`
are both present and nonzero, the stored `hops_away` equals
`hopStart − hopLimit` — in particular 0 when they are equal and nonzero;
when either hop field is 0 or missing the column is left unset. -/
theorem hopsAway_eq_diff (p : Packet) (nid : String) (hs hl : Int)
    (iface : List IfaceNode) (db : List DbNodeRow) (now : Nat)
    (hfrom : p.fromId = some nid) (hhs : p.hopStart = some hs)
    (hhl : p.hopLimit = some hl) (hs0 : hs ≠ 0) (hl0 : hl ≠ 0) :
    (extractPacketData p iface db now).map PacketData.hops_away = some (some (hs - hl)) := by
  simp only [extractPacketData, hfrom, hhs, hhl]
  rw [if_pos (⟨hs0, hl0⟩ : hs ≠ 0 ∧ hl ≠ 0)]
  cases hrel : p.relayNode with
  | none => split <;> simp
  | some pid =>
      by_cases hpos : hs - hl > 0
      · simp only [Option.getD_some, gt_iff_lt, hpos, if_true]
        cases hm : matchRelayNode pid iface db nid with
        | none => split <;> simp
        | some m => by_cases hbang : isBangId m.id <;> simp [hbang] <;> split <;> simp
      · simp only [Option.getD_some, gt_iff_lt, hpos, if_false]
        split <;> simp

/-- Witness for `hopsAway_eq_diff`: the direct-text scenario packet has
`hopStart = hopLimit = 3`, and its stored `hops_away` is `3 - 3 = 0`. -/
theorem hopsAway_eq_diff_witness :
    scenarioPacket.fromId = some "!11111111" ∧ scenarioPacket.hopStart = some 3 ∧
    scenarioPacket.hopLimit = some 3 ∧ ((3 : Int) ≠ 0) ∧
    (extractPacketData scenarioPacket [] [] 0).map PacketData.hops_away =
      some (some (3 - 3)) :=
  ⟨rfl, rfl, rfl, by decide,
    hopsAway_eq_diff scenarioPacket "!11111111" 3 3 [] [] 0 rfl rfl rfl
      (by decide) (by decide)⟩

/-- Claim C1 (refuted in its final arithmetic): ingesting the direct text
packet writes the edge with link quality
round(0.4·60 + 0.4·44.4 + 0.2·2, 2) = 42.16, not the 42.18 the claim
asserts (0.4·60 + 0.4·44.4 + 0.2·2 = 24 + 17.76 + 0.4 = 42.16). -/
theorem directText_quality_not_spec_value :
    (updateTopologyFromPacket scenarioPacket (some "!local") none 0).map
        TopoEdge.link_quality_score = some ((42.16 : ℚ)) ∧
    (42.16 : ℚ) ≠ (42.18 : ℚ) := by
  constructor
  · have h1 : updateTopologyFromPacket scenarioPacket (some "!local") none 0 =
        some (updateTopology none (some 4) (some (-80)) (some (3 - 3)) 0) := by
      simp [updateTopologyFromPacket, scenarioPacket]
    rw [h1]
    simp only [Option.map_some']
    simp only [updateTopology, calculateLinkQuality]
    norm_num [round2, min_def, max_def]
  · norm_num

/-- Claim C1 as amended: ingesting the packet
`{fromId:"!11111111", hopStart:3, hopLimit:3, rxSnr:4.0, rxRssi:-80,
TEXT_MESSAGE_APP "hi"}` into an empty store creates the node with
`total_packets = 1`, stores one packet row with `hops_away = 0` and
`message_text = "hi"`, and writes the edge to the local node with
`avg_snr = 4`, `avg_rssi = -80` and link quality 42.16. -/
theorem directTextScenario_amended :
    ((extractNodeData scenarioPacket []).map
        (fun nd => (upsertNode none nd 0).total_packets_received) = some 1) ∧
    ((extractPacketData scenarioPacket [] [] 0).map (fun pd =>
        (insertPacket emptyPH pd 1000).rows.map
          (fun r => (r.data.hops_away, r.data.message_text))) =
      some [(some 0, some "hi")]) ∧
    ((updateTopologyFromPacket scenarioPacket (some "!local") none 0).map (fun e =>
        (e.avg_snr, e.avg_rssi, e.link_quality_score)) =
      some (some 4, some (-80), (42.16 : ℚ))) := by
  refine ⟨?_, ?_, ?_⟩
  · simp [extractNodeData, scenarioPacket, upsertNode]
  · simp [extractPacketData, scenarioPacket, insertPacket, emptyPH, mkPkt]
  · have h1 : updateTopologyFromPacket scenarioPacket (some "!local") none 0 =
        some (updateTopology none (some 4) (some (-80)) (some (3 - 3)) 0) := by
      simp [updateTopologyFromPacket, scenarioPacket]
    rw [h1]
    simp only [Option.map_some']
    simp only [updateTopology, calculateLinkQuality]
    norm_num [round2, min_def, max_def, Prod.mk.injEq]

/-- Claim C8: in the telemetry scheduler's candidate query, (i) with the
skip flag set, no selected node has a traceroute within the recency
cutoff; (ii) staleness is measured against **completed** telemetry
attempts only — a non-completed attempt row never changes the result;
(iii) the spec's scenario: a node with a 1-hour-old traceroute, no
telemetry ever and recent activity is not selected with the flag true
(`traceroute_age_hours = 4`) and is selected with the flag false. -/
theorem telemetryScheduler_skip_spec :
    (∀ (nodes : List NodeRow) (tels : List TelAttempt) (trs : List TracerouteRow)
        (now aT rA tA : Nat) (eM : Bool) (limit : Nat) (nd : NodeRow) (t : Nat),
      nd ∈ getNodesNeedingTelemetryRequest nodes tels trs now aT rA tA eM true limit →
      lastTracerouteTo trs nd.node_id = some t →
      t < now - tA * 3600) ∧
    (∀ (nodes : List NodeRow) (tels : List TelAttempt) (trs : List TracerouteRow)
        (now aT rA tA : Nat) (eM skip : Bool) (limit : Nat) (extra : TelAttempt),
      extra.status ≠ AttemptStatus.completed →
      getNodesNeedingTelemetryRequest nodes (extra :: tels) trs now aT rA tA eM skip limit =
        getNodesNeedingTelemetryRequest nodes tels trs now aT rA tA eM skip limit) ∧
    (getNodesNeedingTelemetryRequest [node44] [] [tr44] nowC 120 2 4 true true 10 = [] ∧
     getNodesNeedingTelemetryRequest [node44] [] [tr44] nowC 120 2 4 true false 10 =
       [node44]) := by
  refine ⟨?_, ?_, ?_, ?_⟩
  case refine_3 =>
    simp [getNodesNeedingTelemetryRequest, telemetryNeedPred, lastCompletedTelemetry,
      lastTracerouteTo, listMaxN, node44, tr44, nowC, telemetryOrderLe]
  case refine_4 =>
    simp [getNodesNeedingTelemetryRequest, telemetryNeedPred, lastCompletedTelemetry,
      lastTracerouteTo, listMaxN, node44, tr44, nowC, telemetryOrderLe]
  · intro nodes tels trs now aT rA tA eM limit nd t hmem hlast
    simp only [getNodesNeedingTelemetryRequest] at hmem
    have h1 := List.mem_of_mem_take hmem
    rw [List.mem_mergeSort, List.mem_filter] at h1
    have hp := h1.2
    simp only [telemetryNeedPred, Bool.and_eq_true, Bool.or_eq_true, Bool.not_eq_true'] at hp
    have hskip := hp.2
    rcases hskip with hskip | hskip
    · simp at hskip
    · rw [hlast] at hskip
      exact of_decide_eq_true hskip
  · intro nodes tels trs now aT rA tA eM skip limit extra hne
    have hb : (extra.status == AttemptStatus.completed) = false := by
      rw [beq_eq_false_iff_ne]
      exact hne
    have hl : ∀ n, lastCompletedTelemetry (extra :: tels) n = lastCompletedTelemetry tels n := by
      intro n
      simp [lastCompletedTelemetry, List.filter_cons, hb]
    have hp : ∀ ac rc tc,
        telemetryNeedPred (extra :: tels) trs ac rc tc eM skip =
          telemetryNeedPred tels trs ac rc tc eM skip := by
      intro ac rc tc
      funext nd
      simp only [telemetryNeedPred, hl]
    have ho : telemetryOrderLe (extra :: tels) = telemetryOrderLe tels := by
      funext x y
      simp only [telemetryOrderLe, hl]
    simp only [getNodesNeedingTelemetryRequest, hp, ho]

/-- Witness for `telemetryScheduler_skip_spec` at concrete inputs: with an
old traceroute the node is selected and that traceroute is indeed older
than the cutoff; a pending (non-completed) telemetry row does not change
the result. -/
theorem telemetryScheduler_skip_spec_witness :
    (node44 ∈ getNodesNeedingTelemetryRequest [node44] [] [tr44old] nowC 120 2 4 true true 10) ∧
    lastTracerouteTo [tr44old] node44.node_id = some 980000 ∧
    (980000 < nowC - 4 * 3600) ∧
    (AttemptStatus.pending ≠ AttemptStatus.completed) ∧
    getNodesNeedingTelemetryRequest [node44]
        [⟨5, "!44444444", none, 7, AttemptStatus.pending, some 8, none, none, none, none, none⟩]
        [] nowC 120 2 4 true true 10 =
      getNodesNeedingTelemetryRequest [node44] [] [] nowC 120 2 4 true true 10 := by
  have hm : node44 ∈ getNodesNeedingTelemetryRequest [node44] [] [tr44old] nowC 120 2 4
      true true 10 := by
    simp [getNodesNeedingTelemetryRequest, telemetryNeedPred, lastCompletedTelemetry,
      lastTracerouteTo, listMaxN, node44, tr44old, nowC, telemetryOrderLe]
  have hl : lastTracerouteTo [tr44old] node44.node_id = some 980000 := by
    simp [lastTracerouteTo, listMaxN, node44, tr44old]
  refine ⟨hm, hl, ?_, by decide, ?_⟩
  · exact telemetryScheduler_skip_spec.1 [node44] [] [tr44old] nowC 120 2 4 true 10
      node44 980000 hm hl
  · exact telemetryScheduler_skip_spec.2.1 [node44] [] [] nowC 120 2 4 true true 10
      ⟨5, "!44444444", none, 7, AttemptStatus.pending, some 8, none, none, none, none, none⟩
      (by decide)

theorem pairKey_comm (a b : String) : pairKey a b = pairKey b a := by
  unfold pairKey
  rcases lt_trichotomy a b with h | rfl | h
  · rw [if_pos h.le, if_neg (not_le.mpr h)]
  · simp
  · rw [if_neg (not_le.mpr h), if_pos h.le]

theorem alistFind_map_replace {K V : Type} [BEq K] [LawfulBEq K] (k : K) (v : V) :
    ∀ (m : List (K × V)), (m.find? (fun kv => kv.1 == k)).isSome →
      alistFind (m.map (fun kv => if kv.1 == k then (k, v) else kv)) k = some v := by
  intro m
  induction m with
  | nil => intro h; simp at h
  | cons kv rest ih =>
      intro h
      cases hk : (kv.1 == k) with
      | true => simp [alistFind, List.find?_cons, hk]
      | false =>
          rw [List.find?_cons, hk] at h
          simp only [List.map_cons, hk, Bool.false_eq_true, if_false]
          have hgoal := ih h
          simp only [alistFind, List.find?_cons, hk] at hgoal ⊢
          exact hgoal

theorem alistFind_alistSet {K V : Type} [BEq K] [LawfulBEq K]
    (m : List (K × V)) (k : K) (v : V) :
    alistFind (alistSet m k v) k = some v := by
  unfold alistSet
  by_cases h : (m.find? (fun kv => kv.1 == k)).isSome
  · rw [if_pos h]
    exact alistFind_map_replace k v m h
  · rw [if_neg h]
    have hf : m.find? (fun kv => kv.1 == k) = none := by
      cases hx : m.find? (fun kv => kv.1 == k) with
      | none => rfl
      | some y => rw [hx] at h; simp at h
    unfold alistFind
    rw [List.find?_append, hf]
    simp

theorem addMem_self (s : List String) (x : String) : x ∈ addMem s x := by
  unfold addMem
  split
  · assumption
  · simp

/-- Claim C9: in the coverage-map view, every observation with a resolved
relay and positioned endpoints is partitioned by `hops_away`: a zero-hop
observation records (or increments) the direct edge keyed by the unordered
pair — never touching the indirect map — and an observation with
`hops_away ≥ 1` adds the source to the relay's hop-tier bucket (1, 2, 3 or
4+) — never touching the direct map; the unordered pair key is symmetric,
so direct edges are deduplicated regardless of orientation.  Both the
packet loop and the telemetry loop obey the same partition. -/
theorem coverageMap_partition :
    (∀ a b : String, pairKey a b = pairKey b a) ∧
    (∀ (lookup : List String) (st : CoverageState) (o : PacketObs),
      o.relay_node_id ∈ lookup → o.node_id ∈ lookup → o.hops_away.getD 0 = 0 →
      (processPacketObs lookup st o).indirect = st.indirect ∧
      ∃ c, alistFind (processPacketObs lookup st o).direct
          (pairKey o.node_id o.relay_node_id) = some c ∧
        c.packetCount =
          (match alistFind st.direct (pairKey o.node_id o.relay_node_id) with
           | some c0 => c0.packetCount + 1
           | none => 1)) ∧
    (∀ (lookup : List String) (st : CoverageState) (o : PacketObs) (h : Int),
      o.relay_node_id ∈ lookup → o.node_id ∈ lookup → o.hops_away = some h → 1 ≤ h →
      (processPacketObs lookup st o).direct = st.direct ∧
      ∃ t, alistFind (processPacketObs lookup st o).indirect o.relay_node_id = some t ∧
        o.node_id ∈ tierBucket t h) ∧
    (∀ (lookup : List String) (st : CoverageState) (o : TelObs),
      o.relay_node_id ∈ lookup → o.to_node_id ∈ lookup → o.hops_away.getD 0 = 0 →
      (processTelemetryObs lookup st o).indirect = st.indirect ∧
      ∃ c, alistFind (processTelemetryObs lookup st o).direct
          (pairKey o.to_node_id o.relay_node_id) = some c ∧
        c.packetCount =
          (match alistFind st.direct (pairKey o.to_node_id o.relay_node_id) with
           | some c0 => c0.packetCount + 1
           | none => 1)) ∧
    (∀ (lookup : List String) (st : CoverageState) (o : TelObs) (h : Int),
      o.relay_node_id ∈ lookup → o.to_node_id ∈ lookup → o.hops_away = some h → 1 ≤ h →
      (processTelemetryObs lookup st o).direct = st.direct ∧
      ∃ t, alistFind (processTelemetryObs lookup st o).indirect o.relay_node_id = some t ∧
        o.to_node_id ∈ tierBucket t h) := by
  refine ⟨pairKey_comm, ?_, ?_, ?_, ?_⟩
  · intro lookup st o hrel hsrc h0
    unfold processPacketObs
    dsimp only
    rw [if_pos h0, if_pos hrel]
    cases hfind : alistFind st.direct (pairKey o.node_id o.relay_node_id) with
    | some c =>
        dsimp only
        exact ⟨rfl, _, alistFind_alistSet _ _ _, rfl⟩
    | none =>
        dsimp only
        rw [if_pos hsrc]
        exact ⟨rfl, _, alistFind_alistSet _ _ _, rfl⟩
  · intro lookup st o h hrel hsrc hha h1
    unfold processPacketObs
    dsimp only
    rw [hha]
    dsimp only [Option.getD_some]
    rw [if_neg (by omega : ¬(h = 0)), if_pos ⟨hsrc, hrel⟩]
    rcases (by omega : h = 1 ∨ h = 2 ∨ h = 3 ∨ 4 ≤ h) with rfl | rfl | rfl | h4
    · rw [if_pos rfl]
      refine ⟨rfl, _, alistFind_alistSet _ _ _, ?_⟩
      unfold tierBucket
      rw [if_pos rfl]
      exact addMem_self _ _
    · rw [if_neg (by norm_num), if_pos rfl]
      refine ⟨rfl, _, alistFind_alistSet _ _ _, ?_⟩
      unfold tierBucket
      rw [if_neg (by norm_num), if_pos rfl]
      exact addMem_self _ _
    · rw [if_neg (by norm_num), if_neg (by norm_num), if_pos rfl]
      refine ⟨rfl, _, alistFind_alistSet _ _ _, ?_⟩
      unfold tierBucket
      rw [if_neg (by norm_num), if_neg (by norm_num), if_pos rfl]
      exact addMem_self _ _
    · rw [if_neg (by omega : ¬(h = 1)), if_neg (by omega : ¬(h = 2)),
        if_neg (by omega : ¬(h = 3))]
      refine ⟨rfl, _, alistFind_alistSet _ _ _, ?_⟩
      unfold tierBucket
      rw [if_neg (by omega : ¬(h = 1)), if_neg (by omega : ¬(h = 2)),
        if_neg (by omega : ¬(h = 3))]
      exact addMem_self _ _
  · intro lookup st o hrel hsrc h0
    unfold processTelemetryObs
    dsimp only
    rw [if_pos h0, if_pos ⟨hsrc, hrel⟩]
    cases hfind : alistFind st.direct (pairKey o.to_node_id o.relay_node_id) with
    | some c =>
        dsimp only
        exact ⟨rfl, _, alistFind_alistSet _ _ _, rfl⟩
    | none =>
        dsimp only
        exact ⟨rfl, _, alistFind_alistSet _ _ _, rfl⟩
  · intro lookup st o h hrel hsrc hha h1
    unfold processTelemetryObs
    dsimp only
    rw [hha]
    dsimp only [Option.getD_some]
    rw [if_neg (by omega : ¬(h = 0)), if_pos ⟨hsrc, hrel⟩]
    rcases (by omega : h = 1 ∨ h = 2 ∨ h = 3 ∨ 4 ≤ h) with rfl | rfl | rfl | h4
    · rw [if_pos rfl]
      refine ⟨rfl, _, alistFind_alistSet _ _ _, ?_⟩
      unfold tierBucket
      rw [if_pos rfl]
      exact addMem_self _ _
    · rw [if_neg (by norm_num), if_pos rfl]
      refine ⟨rfl, _, alistFind_alistSet _ _ _, ?_⟩
      unfold tierBucket
      rw [if_neg (by norm_num), if_pos rfl]
      exact addMem_self _ _
    · rw [if_neg (by norm_num), if_neg (by norm_num), if_pos rfl]
      refine ⟨rfl, _, alistFind_alistSet _ _ _, ?_⟩
      unfold tierBucket
      rw [if_neg (by norm_num), if_neg (by norm_num), if_pos rfl]
      exact addMem_self _ _
    · rw [if_neg (by omega : ¬(h = 1)), if_neg (by omega : ¬(h = 2)),
        if_neg (by omega : ¬(h = 3))]
      refine ⟨rfl, _, alistFind_alistSet _ _ _, ?_⟩
      unfold tierBucket
      rw [if_neg (by omega : ¬(h = 1)), if_neg (by omega : ¬(h = 2)),
        if_neg (by omega : ¬(h = 3))]
      exact addMem_self _ _

/-- Witness for `coverageMap_partition` at concrete observations: a
zero-hop packet creates a direct edge, a two-hop packet lands in tier 2, a
hop-less telemetry row counts as direct, a three-hop one lands in tier 3. -/
theorem coverageMap_partition_witness :
    (pobs0.relay_node_id ∈ lookupW ∧ pobs0.hops_away.getD 0 = 0) ∧
    ((processPacketObs lookupW stW pobs0).indirect = stW.indirect ∧
      ∃ c, alistFind (processPacketObs lookupW stW pobs0).direct
          (pairKey pobs0.node_id pobs0.relay_node_id) = some c ∧
        c.packetCount =
          (match alistFind stW.direct (pairKey pobs0.node_id pobs0.relay_node_id) with
           | some c0 => c0.packetCount + 1
           | none => 1)) ∧
    ((processPacketObs lookupW stW pobs2).direct = stW.direct ∧
      ∃ t, alistFind (processPacketObs lookupW stW pobs2).indirect
          pobs2.relay_node_id = some t ∧
        pobs2.node_id ∈ tierBucket t 2) ∧
    ((processTelemetryObs lookupW stW tobs0).indirect = stW.indirect ∧
      ∃ c, alistFind (processTelemetryObs lookupW stW tobs0).direct
          (pairKey tobs0.to_node_id tobs0.relay_node_id) = some c ∧
        c.packetCount =
          (match alistFind stW.direct (pairKey tobs0.to_node_id tobs0.relay_node_id) with
           | some c0 => c0.packetCount + 1
           | none => 1)) ∧
    ((processTelemetryObs lookupW stW tobs3).direct = stW.direct ∧
      ∃ t, alistFind (processTelemetryObs lookupW stW tobs3).indirect
          tobs3.relay_node_id = some t ∧
        tobs3.to_node_id ∈ tierBucket t 3) :=
  ⟨⟨by decide, by decide⟩,
   coverageMap_partition.2.1 lookupW stW pobs0 (by decide) (by decide) (by decide),
   coverageMap_partition.2.2.1 lookupW stW pobs2 2 (by decide) (by decide) rfl (by decide),
   coverageMap_partition.2.2.2.1 lookupW stW tobs0 (by decide) (by decide) (by decide),
   coverageMap_partition.2.2.2.2 lookupW stW tobs3 3 (by decide) (by decide) rfl (by decide)⟩

theorem rankLt_trans : ∀ a b c : RelayMatch,
    rankLt a b = true → rankLt b c = true → rankLt a c = true := by
  intro a b c h1 h2
  simp only [rankLt, decide_eq_true_eq] at *
  rcases h1 with h1 | ⟨e1, h1'⟩ <;> rcases h2 with h2 | ⟨e2, h2'⟩
  · exact Or.inl (lt_trans h1 h2)
  · exact Or.inl (lt_of_lt_of_le h1 (le_of_eq e2))
  · exact Or.inl (lt_of_le_of_lt (le_of_eq e1) h2)
  · refine Or.inr ⟨e1.trans e2, ?_⟩
    rcases h1' with h1' | ⟨f1, g1⟩ <;> rcases h2' with h2' | ⟨f2, g2⟩
    · exact Or.inl (lt_trans h1' h2')
    · exact Or.inl (lt_of_lt_of_le h1' (le_of_eq f2))
    · exact Or.inl (lt_of_le_of_lt (le_of_eq f1) h2')
    · exact Or.inr ⟨f1.trans f2, lt_trans g1 g2⟩

theorem rankLt_nlt : ∀ a b c : RelayMatch,
    rankLt a c = true → rankLt b c = false → rankLt a b = true := by
  intro a b c h1 h2
  simp only [rankLt, decide_eq_true_eq] at h1 ⊢
  simp only [rankLt, decide_eq_false_iff_not, not_or, not_and, not_lt] at h2
  obtain ⟨h2a, h2b⟩ := h2
  rcases h1 with h1 | ⟨e1, h1'⟩
  · exact Or.inl (lt_of_lt_of_le h1 h2a)
  · rcases lt_or_eq_of_le h2a with hlt | heq
    · exact Or.inl (lt_of_le_of_lt (le_of_eq e1) hlt)
    · have hbc : b.lastHeard = c.lastHeard := heq.symm
      have h2c := h2b hbc
      simp only [not_or, not_and, not_lt] at h2c
      obtain ⟨h2d, h2e⟩ := h2c
      refine Or.inr ⟨e1.trans hbc.symm, ?_⟩
      rcases h1' with h1' | ⟨f1, g1⟩
      · exact Or.inl (lt_of_lt_of_le h1' h2d)
      · rcases lt_or_eq_of_le h2d with hlt | heq2
        · exact Or.inl (lt_of_le_of_lt (le_of_eq f1) hlt)
        · have hbcs : b.snr = c.snr := heq2.symm
          have h2f := h2e hbcs
          exact Or.inr ⟨f1.trans hbcs.symm, lt_of_lt_of_le g1 h2f⟩

theorem rankLt_irrefl : ∀ a : RelayMatch, rankLt a a = false := by
  intro a
  simp [rankLt]

/-- Claim C6: relay resolution.  With no qualifying candidate (neither in
the driver table nor in the Store fallback) the resolver returns `none`
and the extraction stores the decimal string of the partial value; with
exactly one qualifying candidate its full identity is returned and stored;
with several, the one no other candidate outranks on
(last-heard, SNR, packet count) — leftmost on full ties — is returned and
stored. -/
theorem relayResolution_cases :
    (∀ (pid : Nat) (iface : List IfaceNode) (db : List DbNodeRow) (src : String),
      ifaceCandidates pid iface src = [] → dbCandidates pid db src = [] →
      matchRelayNode pid iface db src = none) ∧
    (∀ (pid : Nat) (iface : List IfaceNode) (db : List DbNodeRow) (src : String)
        (m : RelayMatch),
      ifaceCandidates pid iface src = [m] →
      matchRelayNode pid iface db src = some m) ∧
    (∀ (pid : Nat) (iface : List IfaceNode) (db : List DbNodeRow) (src : String)
        (m : RelayMatch),
      ifaceCandidates pid iface src = [] → dbCandidates pid db src = [m] →
      matchRelayNode pid iface db src = some m) ∧
    (∀ (pid : Nat) (iface : List IfaceNode) (db : List DbNodeRow) (src : String)
        (m : RelayMatch) (rest : List RelayMatch),
      ifaceCandidates pid iface src = m :: rest →
      ∃ b, matchRelayNode pid iface db src = some b ∧ b ∈ m :: rest ∧
        ∀ x ∈ m :: rest, rankLt b x = false) ∧
    (∀ (pid : Nat) (iface : List IfaceNode) (db : List DbNodeRow) (src : String)
        (m : RelayMatch) (rest : List RelayMatch),
      ifaceCandidates pid iface src = [] → dbCandidates pid db src = m :: rest →
      ∃ b, matchRelayNode pid iface db src = some b ∧ b ∈ m :: rest ∧
        ∀ x ∈ m :: rest, rankLt b x = false) ∧
    (∀ (p : Packet) (nid : String) (pid : Nat) (hs hl : Int) (iface : List IfaceNode)
        (db : List DbNodeRow) (now : Nat),
      p.fromId = some nid → p.hopStart = some hs → p.hopLimit = some hl →
      hs ≠ 0 → hl ≠ 0 → 0 < hs - hl → p.relayNode = some pid →
      ((matchRelayNode pid iface db nid = none →
          (extractPacketData p iface db now).map PacketData.relay_node_id =
            some (some (toString pid))) ∧
       (∀ m, matchRelayNode pid iface db nid = some m → isBangId m.id = true →
          (extractPacketData p iface db now).map PacketData.relay_node_id =
            some (some m.id)))) := by
  refine ⟨?_, ?_, ?_, ?_, ?_, ?_⟩
  · intro pid iface db src h1 h2
    simp [matchRelayNode, h1, h2]
  · intro pid iface db src m h1
    simp [matchRelayNode, h1]
  · intro pid iface db src m h1 h2
    simp [matchRelayNode, h1, h2]
  · intro pid iface db src m rest h1
    cases rest with
    | nil =>
        refine ⟨m, by simp [matchRelayNode, h1], by simp, ?_⟩
        intro x hx
        rw [List.mem_singleton] at hx
        subst hx
        exact rankLt_irrefl x
    | cons r rs =>
        refine ⟨bestMatch m (r :: rs), by simp [matchRelayNode, h1, bestMatch], ?_, ?_⟩
        · exact foldMax_mem rankLt m (r :: rs)
        · exact foldMax_maximal rankLt rankLt_trans rankLt_nlt rankLt_irrefl m (r :: rs)
  · intro pid iface db src m rest h1 h2
    cases rest with
    | nil =>
        refine ⟨m, by simp [matchRelayNode, h1, h2], by simp, ?_⟩
        intro x hx
        rw [List.mem_singleton] at hx
        subst hx
        exact rankLt_irrefl x
    | cons r rs =>
        refine ⟨bestMatch m (r :: rs), by simp [matchRelayNode, h1, h2, bestMatch], ?_, ?_⟩
        · exact foldMax_mem rankLt m (r :: rs)
        · exact foldMax_maximal rankLt rankLt_trans rankLt_nlt rankLt_irrefl m (r :: rs)
  · intro p nid pid hs hl iface db now hfrom hhs hhl hs0 hl0 hpos hrel
    constructor
    · intro hm
      simp only [extractPacketData, hfrom, hhs, hhl]
      rw [if_pos (⟨hs0, hl0⟩ : hs ≠ 0 ∧ hl ≠ 0)]
      rw [hrel]
      dsimp only [Option.getD_some]
      rw [if_pos hpos, hm]
      split <;> simp
    · intro m hm hbang
      simp only [extractPacketData, hfrom, hhs, hhl]
      rw [if_pos (⟨hs0, hl0⟩ : hs ≠ 0 ∧ hl ≠ 0)]
      rw [hrel]
      dsimp only [Option.getD_some]
      rw [if_pos hpos, hm]
      dsimp only
      rw [if_pos hbang]
      split <;> simp

/-- Witness for `relayResolution_cases` at concrete inputs: no candidate,
one candidate, two candidates (the more recently heard wins), the winner's
identity stored in the packet row, and the decimal fallback. -/
theorem relayResolution_cases_witness :
    matchRelayNode 0xdd [] [] "!11111111" = none ∧
    matchRelayNode 0xdd [ifn1] [] "!11111111" = some relayC1 ∧
    (∃ b, matchRelayNode 0xdd [ifn1, ifn2] [] "!11111111" = some b ∧
      b ∈ [relayC1, relayC2] ∧ ∀ x ∈ [relayC1, relayC2], rankLt b x = false) ∧
    (extractPacketData pktRelay [ifn1, ifn2] [] 0).map PacketData.relay_node_id =
      some (some relayC2.id) ∧
    (extractPacketData pktRelay [] [] 0).map PacketData.relay_node_id =
      some (some (toString 0xdd)) :=
  ⟨relayResolution_cases.1 0xdd [] [] "!11111111" rfl rfl,
   relayResolution_cases.2.1 0xdd [ifn1] [] "!11111111" relayC1 rfl,
   relayResolution_cases.2.2.2.1 0xdd [ifn1, ifn2] [] "!11111111" relayC1 [relayC2] rfl,
   (relayResolution_cases.2.2.2.2.2 pktRelay "!11111111" 0xdd 3 1 [ifn1, ifn2] [] 0
      rfl rfl rfl (by decide) (by decide) (by decide) rfl).2 relayC2 rfl (by decide),
   (relayResolution_cases.2.2.2.2.2 pktRelay "!11111111" 0xdd 3 1 [] [] 0
      rfl rfl rfl (by decide) (by decide) (by decide) rfl).1 rfl⟩

theorem enumRows_length (n : String) (ts : List Nat) (s : Nat) :
    (enumRows n ts s).length = ts.length := by
  induction ts generalizing s with
  | nil => rfl
  | cons t rest ih => simp [enumRows, ih]

theorem enumRows_append (n : String) (a b : List Nat) (s : Nat) :
    enumRows n (a ++ b) s = enumRows n a s ++ enumRows n b (s + a.length) := by
  induction a generalizing s with
  | nil => simp [enumRows]
  | cons x xs ih =>
      have hidx : s + 1 + xs.length = s + (xs.length + 1) := by omega
      simp only [List.cons_append, enumRows, List.append_eq, ih, List.length_cons, hidx]

theorem enumRows_mem (n : String) (ts : List Nat) (s : Nat) :
    ∀ r ∈ enumRows n ts s, r.data.node_id = n ∧ r.data.received_at ∈ ts ∧
      s ≤ r.id ∧ r.id < s + ts.length := by
  induction ts generalizing s with
  | nil => intro r hr; simp [enumRows] at hr
  | cons t rest ih =>
      intro r hr
      rcases List.mem_cons.mp hr with rfl | hr'
      · exact ⟨rfl, by simp [mkPkt], le_refl _, by show s < s + (rest.length + 1); omega⟩
      · obtain ⟨h1, h2, h3, h4⟩ := ih (s + 1) r hr'
        exact ⟨h1, by simp [h2], by omega,
          by show r.id < s + (rest.length + 1); omega⟩

theorem enumRows_pairwise (n : String) (ts : List Nat) (s : Nat)
    (hts : List.Pairwise (· < ·) ts) :
    List.Pairwise (fun a b : PacketRow =>
      a.data.received_at < b.data.received_at ∧ a.id < b.id) (enumRows n ts s) := by
  induction ts generalizing s with
  | nil => exact List.Pairwise.nil
  | cons t rest ih =>
      rcases hts with _ | ⟨hall, hrest⟩
      refine List.Pairwise.cons ?_ (ih (s + 1) hrest)
      intro r hr
      obtain ⟨_, h2, h3, _⟩ := enumRows_mem n rest (s + 1) r hr
      exact ⟨hall _ h2, by show s < r.id; omega⟩

theorem filter_drop_ids :
    ∀ (l : List PacketRow) (k : Nat),
      List.Pairwise (fun a b : PacketRow => a.id < b.id) l →
      l.filter (fun r => decide (r.id ∉ (l.take k).map (fun r => r.id))) = l.drop k := by
  intro l
  induction l with
  | nil => intro k _; simp
  | cons x xs ih =>
      intro k hp
      rcases hp with _ | ⟨hall, hxs⟩
      cases k with
      | zero => simp
      | succ k' =>
          simp only [List.take_succ_cons, List.map_cons, List.drop_succ_cons]
          rw [List.filter_cons]
          rw [if_neg (by simp)]
          have hcongr : xs.filter
              (fun r => decide (r.id ∉ x.id :: (xs.take k').map (fun r => r.id))) =
              xs.filter (fun r => decide (r.id ∉ (xs.take k').map (fun r => r.id))) := by
            apply List.filter_congr
            intro r hr
            have hne : r.id ≠ x.id := by
              have := hall r hr
              omega
            simp [List.mem_cons, hne]
          rw [hcongr]
          exact ih k' hxs

/-- Running `insert_packet` on a table whose rows all belong to the inserted
packet's node and are already in scan order (receive time and rowid both
strictly increasing, the appended row last): the eviction keeps exactly
the newest `maxPerNode` rows. -/
theorem insertPacket_sorted (st : PHState) (p : PacketData) (N : Nat)
    (hnode : ∀ r ∈ st.rows, r.data.node_id = p.node_id)
    (hpair : List.Pairwise (fun a b : PacketRow =>
      a.data.received_at < b.data.received_at ∧ a.id < b.id)
      (st.rows ++ [{ id := st.nextId, data := p }])) :
    insertPacket st p N =
      { rows := (st.rows ++ [({ id := st.nextId, data := p } : PacketRow)]).drop
          ((st.rows.length + 1) - N),
        nextId := st.nextId + 1 } := by
  unfold insertPacket
  dsimp only
  have hfilter : (st.rows ++ [({ id := st.nextId, data := p } : PacketRow)]).filter
      (fun r => r.data.node_id == p.node_id) =
      st.rows ++ [({ id := st.nextId, data := p } : PacketRow)] := by
    rw [List.filter_eq_self]
    intro r hr
    rcases List.mem_append.mp hr with h | h
    · exact beq_iff_eq.mpr (hnode r h)
    · rw [List.mem_singleton] at h
      subst h
      exact beq_iff_eq.mpr rfl
  rw [hfilter]
  have hlen1 : (st.rows ++ [({ id := st.nextId, data := p } : PacketRow)]).length =
      st.rows.length + 1 := by simp
  by_cases hc : N < (st.rows ++ [({ id := st.nextId, data := p } : PacketRow)]).length
  · rw [if_pos hc]
    have hsorted : List.Pairwise (fun a b => rowLe a b = true)
        (st.rows ++ [({ id := st.nextId, data := p } : PacketRow)]) := by
      refine hpair.imp ?_
      intro a b hab
      simp only [rowLe, decide_eq_true_eq]
      omega
    rw [List.mergeSort_of_sorted hsorted]
    rw [filter_drop_ids _ _ (hpair.imp (by intro a b hab; exact hab.2))]
    rw [hlen1]
  · rw [if_neg hc]
    rw [hlen1] at hc
    have : st.rows.length + 1 - N = 0 := by omega
    rw [this, List.drop_zero]

/-- The per-node packet table after inserting a strictly time-ordered
sequence from the empty store: exactly the newest `N` rows remain and the
auto-increment counter equals the number of inserts. -/
theorem runInserts_spec (n : String) (N : Nat) (hN : 1 ≤ N) :
    ∀ ts : List Nat, List.Pairwise (· < ·) ts →
      (runInserts n ts N).rows = (enumRows n ts 0).drop (ts.length - N) ∧
      (runInserts n ts N).nextId = ts.length := by
  intro ts
  induction ts using List.reverseRecOn with
  | nil =>
      intro _
      constructor <;> simp [runInserts, emptyPH, enumRows]
  | append_singleton ts t ih =>
      intro hp
      have hts : List.Pairwise (· < ·) ts :=
        hp.sublist (List.sublist_append_left ts [t])
      have hall : ∀ a ∈ ts, a < t := by
        rw [List.pairwise_append] at hp
        intro a ha
        exact hp.2.2 a ha t (List.mem_singleton.mpr rfl)
      obtain ⟨hrows, hnext⟩ := ih hts
      have hrun : runInserts n (ts ++ [t]) N =
          insertPacket (runInserts n ts N) (mkPkt n t) N := by
        unfold runInserts
        rw [List.foldl_append]
        rfl
      set prev := runInserts n ts N with hprev
      set L := ts.length with hL
      set E := enumRows n ts 0 with hE
      have hElen : E.length = L := enumRows_length n ts 0
      have hRlen : prev.rows.length = L - (L - N) := by
        rw [hrows, List.length_drop, hElen]
      have hnode : ∀ r ∈ prev.rows, r.data.node_id = (mkPkt n t).node_id := by
        intro r hr
        rw [hrows] at hr
        have hrE : r ∈ E := (List.drop_sublist _ _).subset hr
        exact (enumRows_mem n ts 0 r hrE).1
      have hpair : List.Pairwise (fun a b : PacketRow =>
          a.data.received_at < b.data.received_at ∧ a.id < b.id)
          (prev.rows ++ [{ id := prev.nextId, data := mkPkt n t }]) := by
        rw [List.pairwise_append]
        refine ⟨?_, List.pairwise_singleton _ _, ?_⟩
        · refine List.Pairwise.sublist ?_ (enumRows_pairwise n ts 0 hts)
          rw [hrows]
          exact List.drop_sublist _ _
        · intro a ha b hb
          rw [List.mem_singleton] at hb
          subst hb
          rw [hrows] at ha
          have haE : a ∈ E := (List.drop_sublist _ _).subset ha
          obtain ⟨_, h2, _, h4⟩ := enumRows_mem n ts 0 a haE
          constructor
          · exact hall _ h2
          · show a.id < prev.nextId
            rw [hnext]
            omega
      rw [hrun, insertPacket_sorted prev (mkPkt n t) N hnode hpair]
      have hEfull : enumRows n (ts ++ [t]) 0 =
          E ++ [({ id := L, data := mkPkt n t } : PacketRow)] := by
        rw [enumRows_append]
        rw [show 0 + ts.length = L by omega]
        rfl
      constructor
      · dsimp only
        rw [hrows, hnext, hEfull]
        have hlen2 : (E.drop (L - N)).length = L - (L - N) := by
          rw [List.length_drop, hElen]
        have hk1 : ((E.drop (L - N)).length + 1) - N ≤ (E.drop (L - N)).length := by
          rw [hlen2]; omega
        rw [List.drop_append_of_le_length hk1]
        have hk2 : (ts ++ [t]).length - N ≤ E.length := by
          simp only [List.length_append, List.length_singleton, hElen]
          omega
        rw [List.drop_append_of_le_length hk2]
        rw [List.drop_drop]
        have hidx : (L - N) + (((E.drop (L - N)).length + 1) - N) =
            (ts ++ [t]).length - N := by
          rw [hlen2]
          simp only [List.length_append, List.length_singleton]
          omega
        rw [hidx]
      · dsimp only
        rw [hnext]
        simp only [List.length_append, List.length_singleton]

/-- After any `insert_packet`, the inserted node's stored row count is at
most the cap: either no eviction was needed, or exactly
`count - maxPerNode` rows were deleted. -/
theorem insertPacket_cap (st : PHState) (p : PacketData) (m : Nat) (hwf : PHWf st) :
    nodeCount (insertPacket st p m) p.node_id ≤ m := by
  unfold insertPacket nodeCount
  dsimp only
  set rows1 := st.rows ++ [({ id := st.nextId, data := p } : PacketRow)] with hrows1
  set S := rows1.filter (fun r => r.data.node_id == p.node_id) with hS
  set sorted := S.mergeSort rowLe with hsortedDef
  set dc := S.length - m with hdc
  set victims := (sorted.take dc).map (fun r => r.id) with hv
  by_cases hc : m < S.length
  case neg =>
    rw [if_neg hc]
    dsimp only
    rw [← hS]
    omega
  case pos =>
    rw [if_pos hc]
    dsimp only
    have hids1 : (rows1.map (fun r => r.id)).Nodup := by
      rw [hrows1, List.map_append]
      rw [List.nodup_append]
      refine ⟨hwf.1, by simp, ?_⟩
      intro a ha hb
      simp only [List.map_cons, List.map_nil, List.mem_singleton] at hb
      rcases List.mem_map.mp ha with ⟨r, hr, rfl⟩
      have hlt := hwf.2 r hr
      omega
    have hSsub : S.Sublist rows1 := List.filter_sublist _
    have hSids : (S.map (fun r => r.id)).Nodup := (hSsub.map _).nodup hids1
    have hperm : sorted.Perm S := List.mergeSort_perm S rowLe
    have hsortids : (sorted.map (fun r => r.id)).Nodup :=
      ((hperm.map _).nodup_iff).mpr hSids
    have hexch : (rows1.filter (fun r => decide (r.id ∉ victims))).filter
        (fun r => r.data.node_id == p.node_id) =
        S.filter (fun r => decide (r.id ∉ victims)) := by
      conv_lhs => rw [List.filter_filter]
      conv_rhs => rw [hS, List.filter_filter]
      apply List.filter_congr
      intro x _
      exact Bool.and_comm _ _
    rw [hexch]
    rw [← List.countP_eq_length_filter]
    rw [(hperm.countP_eq _).symm]
    conv_lhs => rw [← List.take_append_drop dc sorted]
    rw [List.countP_append]
    have htake : List.countP (fun r => decide (r.id ∉ victims)) (sorted.take dc) = 0 := by
      rw [List.countP_eq_zero]
      intro a ha
      simp only [decide_eq_true_eq]
      intro hcon
      exact hcon (hv ▸ List.mem_map.mpr ⟨a, ha, rfl⟩)
    have hdrop : List.countP (fun r => decide (r.id ∉ victims)) (sorted.drop dc) =
        (sorted.drop dc).length := by
      rw [List.countP_eq_length]
      intro a ha
      simp only [decide_eq_true_eq]
      have hmap : (sorted.take dc).map (fun r => r.id) ++
          (sorted.drop dc).map (fun r => r.id) = sorted.map (fun r => r.id) := by
        rw [← List.map_append, List.take_append_drop]
      have hnd := hsortids
      rw [← hmap, List.nodup_append] at hnd
      intro hcon
      rw [hv] at hcon
      exact hnd.2.2 hcon (List.mem_map.mpr ⟨a, ha, rfl⟩)
    rw [htake, hdrop, List.length_drop, List.length_mergeSort]
    omega

/-- Claim C2: after every `insert_packet` the inserted node's stored count
is at most `maxPerNode`; eviction is FIFO by receive timestamp — after
`N + k` strictly time-ordered inserts for one node exactly the `k` oldest
rows are gone (the rows are the suffix of the insert sequence of length
`N`) — and with `maxPerNode = 1` only the most recently inserted packet
remains. -/
theorem insertPacket_cap_fifo :
    (∀ (st : PHState) (p : PacketData) (m : Nat), PHWf st → 1 ≤ m →
      nodeCount (insertPacket st p m) p.node_id ≤ m) ∧
    (∀ (n : String) (ts : List Nat) (N : Nat), 1 ≤ N →
      List.Pairwise (· < ·) ts →
      (runInserts n ts N).rows = (enumRows n ts 0).drop (ts.length - N)) ∧
    (∀ (n : String) (ts : List Nat) (t : Nat),
      List.Pairwise (· < ·) (ts ++ [t]) →
      (runInserts n (ts ++ [t]) 1).rows.map (fun r => r.data.received_at) = [t]) := by
  refine ⟨fun st p m hwf _ => insertPacket_cap st p m hwf,
          fun n ts N hN hp => (runInserts_spec n N hN ts hp).1, ?_⟩
  intro n ts t hp
  have h := (runInserts_spec n 1 (le_refl 1) (ts ++ [t]) hp).1
  rw [h, enumRows_append]
  rw [show 0 + ts.length = ts.length by omega]
  rw [show (ts ++ [t]).length - 1 = ts.length by simp]
  rw [show ts.length = (enumRows n ts 0).length from (enumRows_length n ts 0).symm]
  rw [List.drop_left]
  rw [show (enumRows n ts 0).length = ts.length from enumRows_length n ts 0]
  simp [enumRows, mkPkt]

/-- Witness for `insertPacket_cap_fifo` at concrete inputs: the cap holds
for a first insert with cap 1; five ordered inserts with cap 2 keep the
newest two; with cap 1 only the last timestamp remains. -/
theorem insertPacket_cap_fifo_witness :
    PHWf emptyPH ∧ (1 : Nat) ≤ 2 ∧ List.Pairwise (· < ·) [10, 20, 30] ∧
    nodeCount (insertPacket emptyPH (mkPkt "!n" 0) 1) (mkPkt "!n" 0).node_id ≤ 1 ∧
    (runInserts "!n" [10, 20, 30] 2).rows = (enumRows "!n" [10, 20, 30] 0).drop 1 ∧
    (runInserts "!n" ([10, 20] ++ [30]) 1).rows.map (fun r => r.data.received_at) = [30] := by
  have hwf : PHWf emptyPH := by
    constructor
    · simp [emptyPH]
    · intro r hr
      simp [emptyPH] at hr
  refine ⟨hwf, by omega, by decide, ?_, ?_, ?_⟩
  · exact insertPacket_cap_fifo.1 emptyPH (mkPkt "!n" 0) 1 hwf (le_refl 1)
  · exact insertPacket_cap_fifo.2.1 "!n" [10, 20, 30] 2 (by omega) (by decide)
  · exact insertPacket_cap_fifo.2.2 "!n" [10, 20] 30 (by decide)

end MeshLink
